import Mathlib

/-!
Verification of the DNS covert-channel listener (server/listeners/dns.py).

Bytes are modelled as `List Nat` with every element below 256; Python strings
as `List Char`; Python exceptions as `Except Unit`; the external collaborators
(database, JSON library, registration/submission verbs) as an explicit
environment record.  All definitions are translated from the source file;
the dispatcher state (message buffers, session map) is passed explicitly.
-/

set_option maxRecDepth 100000

namespace DnsC2

/-- Byte strings: each element is a byte value, 0 ≤ b < 256. -/
abbrev Bytes := List Nat

/-- The eight bits of a byte, most significant first. -/
def byteBits (b : Nat) : List Bool :=
  [b.testBit 7, b.testBit 6, b.testBit 5, b.testBit 4,
   b.testBit 3, b.testBit 2, b.testBit 1, b.testBit 0]

/-- Big-endian bit stream of a byte string. -/
def bytesToBits (bs : Bytes) : List Bool := (bs.map byteBits).flatten

/-- Value of a bit string, most significant bit first. -/
def bitsVal (l : List Bool) : Nat :=
  l.foldl (fun a b => 2 * a + (if b then 1 else 0)) 0

/-- The five bits of a base32 digit value, most significant first. -/
def bits5 (v : Nat) : List Bool :=
  [v.testBit 4, v.testBit 3, v.testBit 2, v.testBit 1, v.testBit 0]

/-- Cut a bit string into 5-bit groups (a short trailing group is kept as is;
it never occurs on the zero-padded streams produced by the encoder). -/
def group5 : List Bool → List (List Bool)
  | [] => []
  | a :: b :: c :: d :: e :: rest => [a, b, c, d, e] :: group5 rest
  | l => [l]

/-- Cut a bit string into 8-bit groups (short trailing group kept as is). -/
def group8 : List Bool → List (List Bool)
  | [] => []
  | a :: b :: c :: d :: e :: f :: g :: h :: rest =>
      [a, b, c, d, e, f, g, h] :: group8 rest
  | l => [l]

/-- Bytes of a bit stream, eight bits at a time, most significant first. -/
def bitsToBytes (l : List Bool) : Bytes := (group8 l).map bitsVal

/-- The RFC 4648 base32 alphabet, as used by Python base64.b32encode. -/
def b32chars : List Char :=
  ['A','B','C','D','E','F','G','H','I','J','K','L','M',
   'N','O','P','Q','R','S','T','U','V','W','X','Y','Z',
   '2','3','4','5','6','7']

/-- Base32 digit for a 5-bit value. -/
def encChar (v : Nat) : Char := b32chars.getD v 'A'

/-- Value of a base32 digit; none for a character outside the alphabet. -/
def charVal (c : Char) : Option Nat :=
  let i := b32chars.indexOf c
  if i < 32 then some i else none

/-- Python str.lower restricted to ASCII (the only characters that occur here). -/
def pyLower (c : Char) : Char :=
  if 'A' ≤ c ∧ c ≤ 'Z' then Char.ofNat (c.toNat + 32) else c

/-- Python str.upper restricted to ASCII (the only characters that occur here). -/
def pyUpper (c : Char) : Char :=
  if 'a' ≤ c ∧ c ≤ 'z' then Char.ofNat (c.toNat - 32) else c

/-- Python base64.b32encode: 5-bit groups of the zero-padded bit stream mapped
through the alphabet, then '='-padded to a multiple of eight characters. -/
def b32encode (data : Bytes) : List Char :=
  let bits := bytesToBits data
  let padded := bits ++ List.replicate ((5 - bits.length % 5) % 5) false
  let chars := (group5 padded).map (fun g => encChar (bitsVal g))
  chars ++ List.replicate ((8 - chars.length % 8) % 8) '='

/-- Digit values of a base32 character string; none as soon as one character
is outside the alphabet (Python: Non-base32 digit found). -/
def decodeChars : List Char → Option (List Nat)
  | [] => some []
  | c :: t =>
      match charVal c, decodeChars t with
      | some v, some vs => some (v :: vs)
      | _, _ => none

/-- The part of base64.b32decode after padding has been stripped: the padding
length must be 0, 1, 3, 4 or 6; every remaining character must be an alphabet
digit; the decoded bytes are the first 5·len(body)/8 bytes of the concatenated
5-bit groups. -/
def b32decodeBody (body : List Char) (pad : Nat) : Except Unit Bytes :=
  if ¬ (pad = 0 ∨ pad = 1 ∨ pad = 3 ∨ pad = 4 ∨ pad = 6) then .error () else
  match decodeChars body with
  | none => .error ()
  | some vals =>
      .ok (bitsToBytes (((vals.map bits5).flatten).take (8 * (5 * body.length / 8))))

/-- Python base64.b32decode (CPython semantics): the length must be a multiple
of eight; all trailing '=' characters are stripped and counted as padding,
then the body is decoded by b32decodeBody. -/
def b32decode (s : List Char) : Except Unit Bytes :=
  if s.length % 8 ≠ 0 then .error () else
  b32decodeBody ((s.reverse.dropWhile (fun c => c = '=')).reverse)
    (s.length - ((s.reverse.dropWhile (fun c => c = '=')).reverse).length)

/-- DNSListener.encode_data: base32-encode, lower-case, strip '=' padding,
replace '/' by '-' (a no-op on the base32 alphabet, kept for fidelity). -/
def encode_data (data : Bytes) : List Char :=
  let encoded := (b32encode data).map pyLower
  let encoded := (encoded.reverse.dropWhile (fun c => c = '=')).reverse
  encoded.map (fun c => if c = '/' then '-' else c)

/-- DNSListener.decode_data: restore '=' padding, upper-case, replace '-' by
'/', base32-decode.  Failure of the underlying base32 decode is a raised
exception in the source, modelled as the error case. -/
def decode_data (encoded : List Char) : Except Unit Bytes :=
  let padding := (8 - encoded.length % 8) % 8
  let e := encoded.map pyUpper ++ List.replicate padding '='
  let e := e.map (fun c => if c = '-' then '/' else c)
  b32decode e

/-- Analysis form: the zero-padded bit stream of a byte string. -/
def paddedBits (p : Bytes) : List Bool :=
  bytesToBits p ++ List.replicate ((5 - (bytesToBits p).length % 5) % 5) false

/-- Analysis form: the unpadded character part of the base32 encoding. -/
def coreChars (p : Bytes) : List Char :=
  (group5 (paddedBits p)).map (fun g => encChar (bitsVal g))

deriving instance DecidableEq for Except

/-! ### Generic helpers: Python dicts as association lists, Python strings -/

/-- Python dict lookup (d.get(k)). -/
def alookup {κ α : Type} [DecidableEq κ] (k : κ) : List (κ × α) → Option α
  | [] => none
  | (k', v) :: t => if k = k' then some v else alookup k t

/-- Python dict assignment d[k] = v: overwrite in place, or append a new key
in insertion order. -/
def ainsert {κ α : Type} [DecidableEq κ] (k : κ) (v : α) : List (κ × α) → List (κ × α)
  | [] => [(k, v)]
  | (k', v') :: t => if k = k' then (k, v) :: t else (k', v') :: ainsert k v t

/-- Python del d[k]: remove the (first) entry with the given key. -/
def aerase {κ α : Type} [DecidableEq κ] (k : κ) : List (κ × α) → List (κ × α)
  | [] => []
  | (k', v') :: t => if k = k' then t else (k', v') :: aerase k t

/-- A Lean string literal as a Python string value. -/
def lstr (s : String) : List Char := s.data

/-- str.encode() of a pure-ASCII string (byte values are the code points). -/
def strB (s : List Char) : Bytes := s.map Char.toNat

/-- Decimal rendering of a natural number (Python str(n)). -/
def natStr (n : Nat) : List Char := (toString n).data

/-- Decimal rendering of an integer (Python str(i)). -/
def intStr (i : Int) : List Char := (toString i).data

/-- Value of a nonempty all-digit string. -/
def digitsVal (s : List Char) : Option Nat :=
  if s = [] then none else
  s.foldlM (fun acc c =>
    if '0' ≤ c ∧ c ≤ '9' then some (10 * acc + (c.toNat - 48)) else none) 0

/-- Python int(s) on the strings this protocol exchanges: an optional minus
sign followed by decimal digits.  (The exotic corners of Python integer
syntax - surrounding whitespace, a plus sign, underscores - do not occur in
this system and are modelled as failures.) -/
def pyInt (s : List Char) : Except Unit Int :=
  match s with
  | '-' :: t =>
      match digitsVal t with
      | some n => .ok (-(n : Int))
      | none => .error ()
  | t =>
      match digitsVal t with
      | some n => .ok ((n : Int))
      | none => .error ()

/-- Python s.split('.'); on the empty string it gives one empty part. -/
def splitDots : List Char → List (List Char)
  | [] => [[]]
  | c :: rest =>
      match splitDots rest with
      | [] => [[]]
      | g :: gs => if c = '.' then [] :: g :: gs else (c :: g) :: gs

/-- Python '.'.join(parts). -/
def joinDots (parts : List (List Char)) : List Char := List.intercalate (lstr ".") parts

/-- Python bytes.decode('ascii'): fails on any byte of 128 or above. -/
def asciiDec : Bytes → Except Unit (List Char)
  | [] => .ok []
  | b :: t =>
      if b < 128 then
        match asciiDec t with
        | .ok cs => .ok (Char.ofNat b :: cs)
        | .error e => .error e
      else .error ()

/-- Python str.encode('ascii'): fails on any character of 128 or above. -/
def asciiEnc (s : List Char) : Except Unit Bytes :=
  if s.all (fun c => c.toNat < 128) then .ok (s.map Char.toNat) else .error ()

/-! ### Data model: listener configuration, external environment, state -/

/-- A ReassemblyBuffer: incoming_messages entry
(chunks, total_chunks, timestamp); the chunk index is a Python int. -/
structure Buffer where
  chunks : List (Int × Bytes)
  total_chunks : Int
  timestamp : Nat
deriving DecidableEq

/-- One row of the Task table, as used by handle_task_query. -/
structure TaskRec where
  id : List Char
  command : List Char
  parameters : Option (List Char)
  status : List Char
  agent_id : List Char
  sent_at : Option Nat
deriving DecidableEq

/-- What the external registration verb agent_checkin returns, as consumed by
handle_checkin_query: result.get('agent_id'), len(result.get('tasks', [])),
result.get('sleep_interval', 60). -/
structure CheckinResult where
  agent_id : Option (List Char)
  tasks : Nat
  sleep : Nat
deriving DecidableEq

/-- The external collaborators of the listener, abstracted as functions:
JSON (de)serialization and the registration / result-submission verbs.
An error value models a raised exception. -/
structure Env where
  /-- json.loads of the check-in payload, schema validation and the
  agent_checkin verb, fused into one fallible call. -/
  checkinCall : Bytes → Except Unit CheckinResult
  /-- json.dumps of the check-in response dict. -/
  dumpsCheckin : CheckinResult → Bytes
  /-- json.dumps of the task dict (id, command, parameters). -/
  serializeTask : TaskRec → Bytes
  /-- json.loads of a reassembled result, task_id extraction, schema
  validation and the submit_task_result verb, fused into one fallible call. -/
  processResult : Bytes → Except Unit Unit

/-- DNSListener configuration (the fields read from self.configuration). -/
structure Config where
  domain : List Char
  ns_records : List (List Char)
  soa_email : List Char
  ttl : Nat
  chunk_size : Nat
  response_ip : List Char

/-- DNS label length limit (self.max_label_length). -/
def max_label_length : Nat := 63

/-- The mutable state of a DNSListener instance, together with the slice of
the external store the handlers touch: incoming_messages, outgoing_messages,
agent_sessions, the Task table, the agents' last_seen column, and the log of
results accepted by submit_task_result (the observation needed to state
at-most-once submission). -/
structure SState where
  incoming : List (List Char × Buffer)
  outgoing : List (List Char × List (List Char))
  sessions : List (Nat × List Char)
  tasks : List TaskRec
  lastSeen : List (List Char × Nat)
  submitted : List Bytes
deriving DecidableEq

/-! ### Response payload builders -/

/-- The 255-byte length-prefixed runs of a TXT record payload.  The fuel
argument only bounds the recursion and is always supplied at or above the
number of runs, so it is never exhausted. -/
def txtChunksF : Nat → Bytes → Bytes
  | _, [] => []
  | 0, _ => []
  | fuel + 1, l => (min 255 l.length) :: (l.take 255 ++ txtChunksF fuel (l.drop 255))

/-- DNSListener.build_txt_response. -/
def build_txt_response (data : Bytes) : Bytes := txtChunksF data.length data

/-- DNSListener.build_error_response. -/
def build_error_response : Bytes := build_txt_response (strB (lstr "ERROR"))

/-- The at-most-63-character pieces of an oversized label (the while loop in
split_data).  The fuel argument only bounds the recursion and is always
supplied at or above the number of pieces, so it is never exhausted. -/
def chunk63F : Nat → List Char → List (List Char)
  | _, [] => []
  | 0, _ => []
  | fuel + 1, s => s.take max_label_length :: chunk63F fuel (s.drop max_label_length)

/-- The pieces of an oversized label. -/
def chunk63 (s : List Char) : List (List Char) := chunk63F s.length s

/-- The indices 0, step, 2·step, ... below len (Python range(0, len, step));
the source only calls this with the configured positive chunk size. -/
def rangeStep (len step : Nat) : List Nat :=
  (List.range ((len + step - 1) / step)).map (fun j => j * step)

/-- DNSListener.split_data. -/
def split_data (cfg : Config) (data : Bytes) (message_id : List Char) : List (List Char) :=
  let total_chunks := (data.length + cfg.chunk_size - 1) / cfg.chunk_size
  (rangeStep data.length cfg.chunk_size).map (fun i =>
    let chunk := (data.drop i).take cfg.chunk_size
    let encoded_chunk := encode_data chunk
    let chunk_domain :=
      message_id ++ '.' :: natStr (i / cfg.chunk_size) ++ '.' :: natStr total_chunks
        ++ '.' :: encoded_chunk
    if chunk_domain.length > max_label_length then joinDots (chunk63 chunk_domain)
    else chunk_domain)

/-! ### Query handlers -/

/-- DNSListener.handle_checkin_query. -/
def handle_checkin_query (env : Env) (st : SState) (parts : List (List Char))
    (transaction_id : Nat) : Bytes × SState :=
  if parts.length < 2 then (build_error_response, st) else
  match decode_data (joinDots parts) with
  | .error _ => (build_error_response, st)
  | .ok agent_data =>
      match env.checkinCall agent_data with
      | .error _ => (build_error_response, st)
      | .ok result =>
          let st' :=
            match result.agent_id with
            | some a =>
                if a ≠ [] then { st with sessions := ainsert transaction_id a st.sessions }
                else st
            | none => st
          (build_txt_response (env.dumpsCheckin result), st')

/-- The fallback agent-id decode in handle_task_query:
decode_data(parts[0]).decode(), with exceptions giving none. -/
def decodeAgentId (parts : List (List Char)) : Option (List Char) :=
  match decode_data (parts.headD []) with
  | .ok b =>
      match asciiDec b with
      | .ok s => some s
      | .error _ => none
  | .error _ => none

/-- The pending-task pull: Task rows for the agent with status pending,
limit 1. -/
def pullPending (tasks : List TaskRec) (aid : List Char) : List TaskRec :=
  (tasks.filter (fun t => decide (t.agent_id = aid ∧ t.status = lstr "pending"))).take 1

/-- Marking a pulled task sent (task.status = sent; task.sent_at = now). -/
def markSent (tasks : List TaskRec) (tid : List Char) (now : Nat) : List TaskRec :=
  tasks.map (fun t =>
    if t.id = tid then { t with status := lstr "sent", sent_at := some now } else t)

/-- DNSListener.handle_task_query. -/
def handle_task_query (cfg : Config) (env : Env) (now : Nat) (st : SState)
    (parts : List (List Char)) (transaction_id : Nat) : Bytes × SState :=
  if parts.length < 1 then (build_error_response, st) else
  let agent_id? :=
    match alookup transaction_id st.sessions with
    | some a => if a = [] then decodeAgentId parts else some a
    | none => decodeAgentId parts
  match agent_id? with
  | none => (build_error_response, st)
  | some agent_id =>
      match pullPending st.tasks agent_id with
      | [] => (build_txt_response (strB (lstr "NOTASK")), st)
      | task :: _ =>
          let st1 := { st with tasks := markSent st.tasks task.id now }
          let task_data := env.serializeTask task
          if task_data.length > 200 then
            let message_id := 't' :: task.id.take 8
            let chunks := split_data cfg task_data message_id
            let st2 := { st1 with outgoing := ainsert agent_id chunks st1.outgoing }
            (build_txt_response
              (strB (lstr "MULTI:" ++ message_id ++ lstr ":" ++ natStr chunks.length)), st2)
          else
            (build_txt_response task_data, st1)

/-- Chunks 0..total-1 of a reassembly buffer, in index order; none on the
first missing index (the KeyError of the reassembly loop). -/
def collectChunks (chunks : List (Int × Bytes)) : List Nat → Option (List Bytes)
  | [] => some []
  | i :: t =>
      match alookup (Int.ofNat i) chunks, collectChunks chunks t with
      | some d, some ds => some (d :: ds)
      | _, _ => none

/-- DNSListener.handle_result_query. -/
def handle_result_query (env : Env) (now : Nat) (st : SState)
    (parts : List (List Char)) (transaction_id : Nat) : Bytes × SState :=
  if parts.length < 3 then (build_error_response, st) else
  let message_id := parts.headD []
  match pyInt (parts.getD 1 []), pyInt (parts.getD 2 []) with
  | .ok chunk_num, .ok total_chunks =>
      match (if parts.length > 3 then decode_data (joinDots (parts.drop 3)) else .ok []) with
      | .error _ => (build_error_response, st)
      | .ok chunk_data =>
          let buf0 :=
            match alookup message_id st.incoming with
            | some b => b
            | none => { chunks := [], total_chunks := total_chunks, timestamp := now }
          let buf := { buf0 with chunks := ainsert chunk_num chunk_data buf0.chunks }
          let st1 := { st with incoming := ainsert message_id buf st.incoming }
          if (buf.chunks.length : Int) = total_chunks then
            match collectChunks buf.chunks (List.range total_chunks.toNat) with
            | none => (build_error_response, st1)
            | some pieces =>
                let full_data := pieces.flatten
                match env.processResult full_data with
                | .error _ => (build_error_response, st1)
                | .ok _ =>
                    (build_txt_response (strB (lstr "ACK")),
                     { st1 with incoming := aerase message_id st1.incoming,
                                submitted := st1.submitted ++ [full_data] })
          else
            (build_txt_response (strB (lstr "CHUNK:" ++ intStr chunk_num)), st1)
  | _, _ => (build_error_response, st)

/-- DNSListener.handle_beacon_query. -/
def handle_beacon_query (now : Nat) (st : SState) (parts : List (List Char))
    (transaction_id : Nat) : Bytes × SState :=
  let st' :=
    match alookup transaction_id st.sessions with
    | some agent_id =>
        if agent_id ≠ [] then
          match alookup agent_id st.lastSeen with
          | some _ => { st with lastSeen := ainsert agent_id now st.lastSeen }
          | none => st
        else st
    | none => st
  (build_txt_response (strB (lstr "PONG")), st')

/-- DNSListener.handle_data_query: always "no answer" (NXDOMAIN). -/
def handle_data_query (st : SState) (parts : List (List Char)) (transaction_id : Nat) :
    Option Bytes × SState :=
  (none, st)

/-- DNSListener.handle_agent_query: suffix check against the configured
domain, subdomain extraction (with the source's arithmetic kept exactly:
the slice bound is len(domain) - len('.' + domain_suffix) - 1), and
dispatch on the first subdomain label. -/
def handle_agent_query (cfg : Config) (env : Env) (now : Nat) (st : SState)
    (domain : List Char) (qtype : Nat) (transaction_id : Nat) : Option Bytes × SState :=
  if ('.' :: cfg.domain).isSuffixOf domain then
    let subdomain := domain.take (domain.length - (('.' :: cfg.domain).length + 1))
    if subdomain = [] then (none, st) else
    let parts := splitDots subdomain
    if parts.headD [] = lstr "checkin" then
      let r := handle_checkin_query env st parts.tail transaction_id
      (some r.1, r.2)
    else if parts.headD [] = lstr "task" then
      let r := handle_task_query cfg env now st parts.tail transaction_id
      (some r.1, r.2)
    else if parts.headD [] = lstr "result" then
      let r := handle_result_query env now st parts.tail transaction_id
      (some r.1, r.2)
    else if parts.headD [] = lstr "beacon" then
      let r := handle_beacon_query now st parts.tail transaction_id
      (some r.1, r.2)
    else handle_data_query st parts transaction_id
  else (none, st)

/-! ### Wire codec -/

/-- struct.pack('!B', n): one byte; out of range raises. -/
def pack8 (n : Nat) : Except Unit Bytes :=
  if n < 256 then .ok [n] else .error ()

/-- struct.pack('!H', n): two big-endian bytes; out of range raises. -/
def pack16 (n : Nat) : Except Unit Bytes :=
  if n < 65536 then .ok [n / 256, n % 256] else .error ()

/-- struct.pack('!I', n): four big-endian bytes; out of range raises. -/
def pack32 (n : Nat) : Except Unit Bytes :=
  if n < 4294967296 then
    .ok [n / 16777216 % 256, n / 65536 % 256, n / 256 % 256, n % 256]
  else .error ()

/-- struct.unpack('!H', b): requires exactly two bytes. -/
def unpack16 (b : Bytes) : Except Unit Nat :=
  match b with
  | [hi, lo] => .ok (hi * 256 + lo)
  | _ => .error ()

/-- data[i] with Python's IndexError as the error case. -/
def byteAt (data : Bytes) (i : Nat) : Except Unit Nat :=
  match data[i]? with
  | some b => .ok b
  | none => .error ()

/-- The label-reading loop of parse_dns_query: length-prefixed labels up to a
zero length (stop) or a compression pointer (read the 16-bit pointer, do not
follow it, stop).  The fuel argument only bounds the recursion; with fuel
above the packet length it is never exhausted before an index error. -/
def parseName (data : Bytes) : Nat → Nat → Except Unit (List (List Char) × Nat)
  | _, 0 => .error ()
  | offset, fuel + 1 =>
      match byteAt data offset with
      | .error _ => .error ()
      | .ok len =>
          if len = 0 then .ok ([], offset + 1)
          else if len &&& 0xC0 = 0xC0 then
            match unpack16 ((data.drop offset).take 2) with
            | .error _ => .error ()
            | .ok _ => .ok ([], offset + 2)
          else
            match asciiDec ((data.drop (offset + 1)).take len) with
            | .error _ => .error ()
            | .ok lbl =>
                match parseName data (offset + 1 + len) fuel with
                | .error _ => .error ()
                | .ok (rest, off) => .ok (lbl :: rest, off)

/-- One decoded question. -/
structure Question where
  name : List Char
  qtype : Nat
  qclass : Nat
deriving DecidableEq

/-- One answer tuple (domain, rtype, rclass, ttl, rdata). -/
structure Answer where
  name : List Char
  rtype : Nat
  rclass : Nat
  ttl : Nat
  rdata : Bytes
deriving DecidableEq

/-- The question-parsing loop of parse_dns_query. -/
def parseQuestions (data : Bytes) : Nat → Nat → Except Unit (List Question)
  | _, 0 => .ok []
  | offset, count + 1 =>
      match parseName data offset (data.length + 1) with
      | .error _ => .error ()
      | .ok (parts, off1) =>
          match unpack16 ((data.drop off1).take 2),
                unpack16 ((data.drop (off1 + 2)).take 2) with
          | .ok qtype, .ok qclass =>
              match parseQuestions data (off1 + 4) count with
              | .ok rest => .ok ({ name := joinDots parts, qtype := qtype, qclass := qclass } :: rest)
              | .error _ => .error ()
          | _, _ => .error ()

/-- DNSListener.parse_dns_query. -/
def parse_dns_query (data : Bytes) : Except Unit (Nat × List Question) :=
  match unpack16 (data.take 2) with
  | .error _ => .error ()
  | .ok transaction_id =>
      match unpack16 ((data.drop 2).take 2) with
      | .error _ => .error ()
      | .ok _flags =>
          match unpack16 ((data.drop 4).take 2) with
          | .error _ => .error ()
          | .ok qdcount =>
              match parseQuestions data 12 qdcount with
              | .error _ => .error ()
              | .ok qs => .ok (transaction_id, qs)

/-- The label encoder of the response builders: for part in name.split('.'),
skipping empty parts, emit a length byte and the ASCII bytes. -/
def encodeLabels (domain : List Char) : Except Unit Bytes :=
  (splitDots domain).foldlM (fun acc part =>
    if part = [] then pure acc
    else do
      let l ← pack8 part.length
      let e ← asciiEnc part
      pure (acc ++ l ++ e)) []

/-- The question section entry of a response. -/
def encodeQuestion (q : Question) : Except Unit Bytes := do
  let body ← encodeLabels q.name
  let t ← pack16 q.qtype
  let c ← pack16 q.qclass
  pure (body ++ [0] ++ t ++ c)

/-- DNSListener.build_dns_response: flags 0x8180, echoed questions, one
compressed-name answer per tuple. -/
def build_dns_response (transaction_id : Nat) (questions : List Question)
    (answers : List Answer) : Except Unit Bytes := do
  let h1 ← pack16 transaction_id
  let h2 ← pack16 0x8180
  let h3 ← pack16 questions.length
  let h4 ← pack16 answers.length
  let h5 ← pack16 0
  let h6 ← pack16 0
  let qd ← questions.foldlM (fun acc q => do
      let e ← encodeQuestion q
      pure (acc ++ e)) ([] : Bytes)
  let ad ← answers.foldlM (fun acc a => do
      let t ← pack16 a.rtype
      let c ← pack16 a.rclass
      let ttl ← pack32 a.ttl
      let ln ← pack16 a.rdata.length
      pure (acc ++ [0xc0, 0x0c] ++ t ++ c ++ ttl ++ ln ++ a.rdata)) ([] : Bytes)
  pure (h1 ++ h2 ++ h3 ++ h4 ++ h5 ++ h6 ++ qd ++ ad)

/-- DNSListener.build_nxdomain_response: flags 0x8183, echoed questions,
zero answers. -/
def build_nxdomain_response (transaction_id : Nat) (questions : List Question) :
    Except Unit Bytes := do
  let h1 ← pack16 transaction_id
  let h2 ← pack16 0x8183
  let h3 ← pack16 questions.length
  let h4 ← pack16 0
  let h5 ← pack16 0
  let h6 ← pack16 0
  let qd ← questions.foldlM (fun acc q => do
      let e ← encodeQuestion q
      pure (acc ++ e)) ([] : Bytes)
  pure (h1 ++ h2 ++ h3 ++ h4 ++ h5 ++ h6 ++ qd)

/-- DNSListener.build_servfail_response: unpacks the 16-bit transaction id
from the given bytes (raising if fewer than two bytes are available - this
is the slip behind the C2 finding), flags 0x8182, all counts zero. -/
def build_servfail_response (transaction_id_bytes : Bytes) : Except Unit Bytes := do
  let tid ← unpack16 transaction_id_bytes
  let h1 ← pack16 tid
  let h2 ← pack16 0x8182
  let z ← pack16 0
  pure (h1 ++ h2 ++ z ++ z ++ z ++ z)

/-- DNSListener.encode_domain. -/
def encode_domain (domain : List Char) : Except Unit Bytes := do
  let body ← encodeLabels domain
  pure (body ++ [0])

/-- DNSListener.build_soa_record (the serial is the current timestamp). -/
def build_soa_record (cfg : Config) (now : Nat) : Except Unit Bytes :=
  match cfg.ns_records with
  | [] => .error ()
  | n0 :: _ => do
      let mname ← encode_domain n0
      let rname ← encode_domain (cfg.soa_email.map (fun c => if c = '@' then '.' else c))
      let serial ← pack32 now
      let refresh ← pack32 7200
      let retry ← pack32 3600
      let expire ← pack32 1209600
      let minimum ← pack32 3600
      pure (mname ++ rname ++ serial ++ refresh ++ retry ++ expire ++ minimum)

/-- The response-ip bytes of the A branch:
struct.pack('!BBBB', *map(int, ip.split('.'))). -/
def parseIpParts : List (List Char) → Except Unit (List Int)
  | [] => .ok []
  | p :: t => do
      let n ← pyInt p
      let r ← parseIpParts t
      pure (n :: r)

/-- The A-record payload for the configured response ip. -/
def ipBytes (ip : List Char) : Except Unit Bytes := do
  let ns ← parseIpParts (splitDots ip)
  match ns with
  | [a, b, c, d] =>
      if 0 ≤ a ∧ a < 256 ∧ 0 ≤ b ∧ b < 256 ∧ 0 ≤ c ∧ c < 256 ∧ 0 ≤ d ∧ d < 256 then
        .ok [a.toNat, b.toNat, c.toNat, d.toNat]
      else .error ()
  | _ => .error ()

/-- The NS answers for one question. -/
def nsAnswers (ttl : Nat) (name : List Char) : List (List Char) → Except Unit (List Answer)
  | [] => .ok []
  | ns :: t => do
      let d ← encode_domain ns
      let r ← nsAnswers ttl name t
      pure ({ name := name, rtype := 2, rclass := 1, ttl := ttl, rdata := d } :: r)

/-- The per-question loop of process_query, threading the listener state
(which the TXT handlers mutate) and stopping at the first raised exception,
whose partial state survives as in the source. -/
def answerLoop (cfg : Config) (env : Env) (now : Nat) (transaction_id : Nat) :
    List Question → List Answer → SState → SState × Except Unit (List Answer)
  | [], acc, st => (st, .ok acc)
  | q :: rest, acc, st =>
      if q.qclass ≠ 1 then answerLoop cfg env now transaction_id rest acc st
      else if q.qtype = 1 then
        match ipBytes cfg.response_ip with
        | .error _ => (st, .error ())
        | .ok ip =>
            answerLoop cfg env now transaction_id rest
              (acc ++ [{ name := q.name, rtype := 1, rclass := 1, ttl := cfg.ttl, rdata := ip }]) st
      else if q.qtype = 16 then
        match handle_agent_query cfg env now st q.name q.qtype transaction_id with
        | (some rd, st') =>
            if rd ≠ [] then
              answerLoop cfg env now transaction_id rest
                (acc ++ [{ name := q.name, rtype := 16, rclass := 1, ttl := cfg.ttl, rdata := rd }]) st'
            else answerLoop cfg env now transaction_id rest acc st'
        | (none, st') => answerLoop cfg env now transaction_id rest acc st'
      else if q.qtype = 2 then
        match nsAnswers cfg.ttl q.name cfg.ns_records with
        | .error _ => (st, .error ())
        | .ok xs => answerLoop cfg env now transaction_id rest (acc ++ xs) st
      else if q.qtype = 6 then
        match build_soa_record cfg now with
        | .error _ => (st, .error ())
        | .ok soa =>
            answerLoop cfg env now transaction_id rest
              (acc ++ [{ name := q.name, rtype := 6, rclass := 1, ttl := cfg.ttl, rdata := soa }]) st
      else answerLoop cfg env now transaction_id rest acc st

/-- DNSListener.process_query: parse, build answers, respond; any exception
inside the try is converted to a SERVFAIL response built from the first two
bytes of the datagram - and if that builder itself raises, the exception
escapes process_query (the second component is then the error value). -/
def process_query (cfg : Config) (env : Env) (now : Nat) (st : SState) (data : Bytes) :
    SState × Except Unit Bytes :=
  match parse_dns_query data with
  | .error _ =>
      match build_servfail_response (data.take 2) with
      | .ok resp => (st, .ok resp)
      | .error _ => (st, .error ())
  | .ok (transaction_id, questions) =>
      match answerLoop cfg env now transaction_id questions [] st with
      | (st', .error _) =>
          match build_servfail_response (data.take 2) with
          | .ok resp => (st', .ok resp)
          | .error _ => (st', .error ())
      | (st', .ok answers) =>
          if answers ≠ [] then
            match build_dns_response transaction_id questions answers with
            | .ok resp => (st', .ok resp)
            | .error _ =>
                match build_servfail_response (data.take 2) with
                | .ok r => (st', .ok r)
                | .error _ => (st', .error ())
          else
            match build_nxdomain_response transaction_id questions with
            | .ok resp => (st', .ok resp)
            | .error _ =>
                match build_servfail_response (data.take 2) with
                | .ok r => (st', .ok r)
                | .error _ => (st', .error ())

/-! ### Background cleanup -/

/-- Seconds between sweeps of cleanup_task (asyncio.sleep(300)). -/
def cleanup_interval : Nat := 300

/-- The reassembly inactivity window in seconds. -/
def inactivity_window : Nat := 600

/-- One iteration of the cleanup_task sweep: collect the message ids whose
buffer timestamp is more than the inactivity window in the past, then delete
them. -/
def cleanup_sweep (now : Nat) (st : SState) : SState :=
  let expired := (st.incoming.filter
    (fun p => decide (now - p.2.timestamp > inactivity_window))).map (fun p => p.1)
  { st with incoming := expired.foldl (fun m k => aerase k m) st.incoming }

/-! ### Default configuration and closed test fixtures -/

/-- The configuration defaults of DNSListener.__init__. -/
def defaultConfig : Config :=
  { domain := lstr "example.com"
    ns_records := [lstr "ns1.example.com", lstr "ns2.example.com"]
    soa_email := lstr "admin.example.com"
    ttl := 300
    chunk_size := 50
    response_ip := lstr "127.0.0.1" }

/-- The state of a freshly constructed listener over an empty store. -/
def emptyState : SState :=
  { incoming := [], outgoing := [], sessions := [], tasks := [], lastSeen := [], submitted := [] }

/-- An inert environment for closed evaluations that never reach the
external verbs. -/
def nullEnv : Env :=
  { checkinCall := fun _ => .error ()
    dumpsCheckin := fun _ => []
    serializeTask := fun _ => []
    processResult := fun _ => .ok () }

/-! ## Lemmas about the label encoder (claim C1) -/

theorem bitsVal_byteBits : ∀ b < 256, bitsVal (byteBits b) = b := by decide

theorem group8_cons8 (a b c d e f g h : Bool) (t : List Bool) :
    group8 (a :: b :: c :: d :: e :: f :: g :: h :: t) =
      [a, b, c, d, e, f, g, h] :: group8 t := rfl

theorem group8_bytesToBits (p : Bytes) : group8 (bytesToBits p) = p.map byteBits := by
  induction p with
  | nil => rfl
  | cons b t ih =>
      show group8 (byteBits b ++ bytesToBits t) = byteBits b :: t.map byteBits
      simp [byteBits, group8_cons8, ih]

theorem bitsToBytes_bytesToBits (p : Bytes) (hp : ∀ b ∈ p, b < 256) :
    bitsToBytes (bytesToBits p) = p := by
  unfold bitsToBytes
  rw [group8_bytesToBits, List.map_map]
  calc p.map (bitsVal ∘ byteBits)
      = p.map id := List.map_congr_left (fun b hb => bitsVal_byteBits b (hp b hb))
    _ = p := List.map_id p

theorem bytesToBits_length (p : Bytes) : (bytesToBits p).length = 8 * p.length := by
  induction p with
  | nil => rfl
  | cons b t ih =>
      show (byteBits b ++ bytesToBits t).length = 8 * (t.length + 1)
      simp [byteBits, ih]
      omega

theorem list_len5 {α : Type} (g : List α) (h : g.length = 5) :
    ∃ a b c d e, g = [a, b, c, d, e] := by
  match g with
  | [a, b, c, d, e] => exact ⟨a, b, c, d, e, rfl⟩
  | [] | [_] | [_, _] | [_, _, _] | [_, _, _, _] => simp at h
  | _ :: _ :: _ :: _ :: _ :: _ :: _ =>
      simp only [List.length_cons] at h
      omega

theorem group5_flatten : ∀ l : List Bool, l.length % 5 = 0 → (group5 l).flatten = l
  | [], _ => rfl
  | a :: b :: c :: d :: e :: t, h => by
      have ht : t.length % 5 = 0 := by
        simp only [List.length_cons] at h
        omega
      show ([a, b, c, d, e] :: group5 t).flatten = a :: b :: c :: d :: e :: t
      rw [List.flatten_cons, group5_flatten t ht]
      rfl
  | [_], h => by simp at h
  | [_, _], h => by simp at h
  | [_, _, _], h => by simp at h
  | [_, _, _, _], h => by simp at h

theorem group5_length : ∀ l : List Bool, l.length % 5 = 0 → (group5 l).length = l.length / 5
  | [], _ => rfl
  | a :: b :: c :: d :: e :: t, h => by
      have ht : t.length % 5 = 0 := by
        simp only [List.length_cons] at h
        omega
      show ([a, b, c, d, e] :: group5 t).length = _
      simp only [List.length_cons, group5_length t ht]
      omega
  | [_], h => by simp at h
  | [_, _], h => by simp at h
  | [_, _, _], h => by simp at h
  | [_, _, _, _], h => by simp at h

theorem group5_mem : ∀ l : List Bool, l.length % 5 = 0 → ∀ g ∈ group5 l, g.length = 5
  | [], _ => by intro g hg; simp [group5] at hg
  | a :: b :: c :: d :: e :: t, h => by
      intro g hg
      have ht : t.length % 5 = 0 := by
        simp only [List.length_cons] at h
        omega
      have hg2 : g ∈ [a, b, c, d, e] :: group5 t := hg
      have hg' : g = [a, b, c, d, e] ∨ g ∈ group5 t := List.mem_cons.1 hg2
      rcases hg' with h1 | h2
      · subst h1; rfl
      · exact group5_mem t ht g h2
  | [_], h => by simp at h
  | [_, _], h => by simp at h
  | [_, _, _], h => by simp at h
  | [_, _, _, _], h => by simp at h

theorem bitsVal5_lt (a b c d e : Bool) : bitsVal [a, b, c, d, e] < 32 := by
  revert a b c d e; decide

theorem bits5_bitsVal (a b c d e : Bool) :
    bits5 (bitsVal [a, b, c, d, e]) = [a, b, c, d, e] := by
  revert a b c d e; decide

theorem charVal_encChar : ∀ v < 32, charVal (encChar v) = some v := by decide

theorem encChar_notin : ∀ v < 32,
    encChar v ≠ '=' ∧ encChar v ≠ '-' ∧ pyLower (encChar v) ≠ '=' ∧
    pyLower (encChar v) ≠ '/' := by decide

theorem casefold_encChar : ∀ v < 32,
    pyUpper (pyLower (encChar v)) = encChar v ∧
    pyUpper (pyUpper (pyLower (encChar v))) = encChar v ∧
    pyLower (pyLower (encChar v)) = pyLower (encChar v) := by decide

theorem pyLower_eq : pyLower '=' = '=' := by decide

theorem dropWhile_replicate_append (p : Char → Bool) (a : Char) (k : Nat) (l : List Char)
    (h : p a = true) : List.dropWhile p (List.replicate k a ++ l) = List.dropWhile p l := by
  induction k with
  | zero => rfl
  | succ n ih => simp [List.replicate_succ, List.dropWhile_cons, h, ih]

theorem dropWhile_of_forall (p : Char → Bool) (l : List Char)
    (h : ∀ c ∈ l, ¬ p c = true) : List.dropWhile p l = l := by
  cases l with
  | nil => rfl
  | cons c t => simp [List.dropWhile_cons, h c (by simp)]

theorem rstrip_append_pad (l : List Char) (k : Nat) (h : ∀ c ∈ l, c ≠ '=') :
    (((l ++ List.replicate k '=').reverse.dropWhile (fun c => c = '=')).reverse) = l := by
  rw [List.reverse_append, List.reverse_replicate,
      dropWhile_replicate_append _ _ _ _ (by simp), dropWhile_of_forall]
  · exact List.reverse_reverse l
  · intro c hc
    simp only [List.mem_reverse] at hc
    simp [h c hc]

theorem map_noop {α : Type} (f : α → α) (l : List α) (h : ∀ c ∈ l, f c = c) :
    l.map f = l := by
  calc l.map f = l.map id := List.map_congr_left h
    _ = l := List.map_id l

theorem decodeChars_core (gs : List (List Bool)) (h : ∀ g ∈ gs, g.length = 5) :
    decodeChars (gs.map (fun g => encChar (bitsVal g))) = some (gs.map bitsVal) := by
  induction gs with
  | nil => rfl
  | cons g t ih =>
      have h5 := h g (by simp)
      have hlt : bitsVal g < 32 := by
        obtain ⟨a, b, c, d, e, rfl⟩ := list_len5 g h5
        exact bitsVal5_lt a b c d e
      show decodeChars (encChar (bitsVal g) :: t.map (fun g => encChar (bitsVal g))) = _
      rw [decodeChars, charVal_encChar _ hlt, ih (fun x hx => h x (by simp [hx]))]
      rfl

theorem coreChars_mem (p : Bytes) : ∀ c ∈ coreChars p, ∃ v, v < 32 ∧ c = encChar v := by
  intro c hc
  obtain ⟨g, hg, rfl⟩ := List.mem_map.1 hc
  have h5 : g.length = 5 := by
    apply group5_mem (paddedBits p) _ g hg
    have := bytesToBits_length p
    simp only [paddedBits, List.length_append, List.length_replicate]
    omega
  obtain ⟨a, b, c', d, e, rfl⟩ := list_len5 g h5
  exact ⟨_, bitsVal5_lt a b c' d e, rfl⟩

theorem paddedBits_mod (p : Bytes) : (paddedBits p).length % 5 = 0 := by
  have := bytesToBits_length p
  simp only [paddedBits, List.length_append, List.length_replicate]
  omega

theorem encode_data_eq (p : Bytes) : encode_data p = (coreChars p).map pyLower := by
  have hmem := coreChars_mem p
  have hb32 : b32encode p =
      coreChars p ++ List.replicate ((8 - (coreChars p).length % 8) % 8) '=' := rfl
  show ((((b32encode p).map pyLower).reverse.dropWhile (fun c => c = '=')).reverse).map
      (fun c => if c = '/' then '-' else c) = (coreChars p).map pyLower
  rw [hb32, List.map_append, List.map_replicate, pyLower_eq, rstrip_append_pad, map_noop]
  · intro c hc
    obtain ⟨d, hd, rfl⟩ := List.mem_map.1 hc
    obtain ⟨v, hv, rfl⟩ := hmem d hd
    have := (encChar_notin v hv).2.2.2
    simp [this]
  · intro c hc
    obtain ⟨d, hd, rfl⟩ := List.mem_map.1 hc
    obtain ⟨v, hv, rfl⟩ := hmem d hd
    exact (encChar_notin v hv).2.2.1

theorem decode_map_encode (p : Bytes) (hp : ∀ b ∈ p, b < 256) (f : Char → Char)
    (hf : ∀ v, v < 32 → pyUpper (f (pyLower (encChar v))) = encChar v) :
    decode_data ((encode_data p).map f) = .ok p := by
  have hblen : (bytesToBits p).length = 8 * p.length := bytesToBits_length p
  have hpadmod : (paddedBits p).length % 5 = 0 := paddedBits_mod p
  have hpadlen : (paddedBits p).length = 8 * p.length + (5 - (8 * p.length) % 5) % 5 := by
    simp [paddedBits, hblen]
  have hclen : (coreChars p).length = (paddedBits p).length / 5 := by
    simp [coreChars, group5_length _ hpadmod]
  have hmem := coreChars_mem p
  rw [encode_data_eq]
  show b32decode (((((coreChars p).map pyLower).map f).map pyUpper ++
        List.replicate ((8 - (((coreChars p).map pyLower).map f).length % 8) % 8) '=').map
        (fun c => if c = '-' then '/' else c)) = .ok p
  have hupper : (((coreChars p).map pyLower).map f).map pyUpper = coreChars p := by
    rw [List.map_map, List.map_map]
    apply map_noop
    intro c hc
    obtain ⟨v, hv, rfl⟩ := hmem c hc
    exact hf v hv
  rw [show (((coreChars p).map pyLower).map f).length = (coreChars p).length by simp, hupper]
  have hslash : ((coreChars p ++
      List.replicate ((8 - (coreChars p).length % 8) % 8) '=').map
        (fun c => if c = '-' then '/' else c)) =
      coreChars p ++ List.replicate ((8 - (coreChars p).length % 8) % 8) '=' := by
    apply map_noop
    intro c hc
    rcases List.mem_append.1 hc with h1 | h2
    · obtain ⟨v, hv, rfl⟩ := hmem c h1
      simp [(encChar_notin v hv).2.1]
    · have : c = '=' := List.eq_of_mem_replicate h2
      subst this
      decide
  rw [hslash]
  have hcne : ∀ c ∈ coreChars p, c ≠ '=' := by
    intro c hc
    obtain ⟨v, hv, rfl⟩ := hmem c hc
    exact (encChar_notin v hv).1
  have hlen8 : ((coreChars p ++
      List.replicate ((8 - (coreChars p).length % 8) % 8) '=').length) % 8 = 0 := by
    simp only [List.length_append, List.length_replicate]
    omega
  show (if _ ≠ 0 then Except.error () else _) = .ok p
  rw [if_neg (by simpa using hlen8)]
  rw [rstrip_append_pad _ _ hcne]
  rw [show (coreChars p ++
      List.replicate ((8 - (coreChars p).length % 8) % 8) '=').length - (coreChars p).length =
      (8 - (coreChars p).length % 8) % 8 by simp]
  have hkset : (8 - (coreChars p).length % 8) % 8 = 0 ∨ (8 - (coreChars p).length % 8) % 8 = 1 ∨
      (8 - (coreChars p).length % 8) % 8 = 3 ∨ (8 - (coreChars p).length % 8) % 8 = 4 ∨
      (8 - (coreChars p).length % 8) % 8 = 6 := by
    omega
  rw [b32decodeBody, if_neg (not_not_intro hkset),
      show decodeChars (coreChars p) = some ((group5 (paddedBits p)).map bitsVal) from
        decodeChars_core _ (group5_mem _ hpadmod)]
  show Except.ok (bitsToBytes ((((group5 (paddedBits p)).map bitsVal).map bits5).flatten.take
      (8 * (5 * (coreChars p).length / 8)))) = Except.ok p
  have hbits : (((group5 (paddedBits p)).map bitsVal).map bits5).flatten = paddedBits p := by
    rw [List.map_map]
    have h1 : (group5 (paddedBits p)).map (bits5 ∘ bitsVal) = group5 (paddedBits p) := by
      apply map_noop
      intro g hg
      obtain ⟨a, b, c, d, e, rfl⟩ := list_len5 g (group5_mem _ hpadmod g hg)
      exact bits5_bitsVal a b c d e
    rw [h1, group5_flatten _ hpadmod]
  rw [hbits]
  have htakeN : 8 * (5 * (coreChars p).length / 8) = 8 * p.length := by
    omega
  rw [htakeN]
  have htake : (paddedBits p).take (8 * p.length) = bytesToBits p := by
    rw [paddedBits, ← hblen]
    exact List.take_left (bytesToBits p) _
  rw [htake, bitsToBytes_bytesToBits p hp]

/-- C1: label-encoder round-trip: for every byte string p, decoding the
label-encoded form of p returns p exactly, and this still holds when the
encoded name has been case-folded (upper- or lower-cased) in transit before
decoding. -/
theorem c1_label_roundtrip (p : Bytes) (hp : ∀ b ∈ p, b < 256) :
    decode_data (encode_data p) = .ok p ∧
    decode_data ((encode_data p).map pyUpper) = .ok p ∧
    decode_data ((encode_data p).map pyLower) = .ok p := by
  refine ⟨?_, ?_, ?_⟩
  · have h := decode_map_encode p hp id (fun v hv => (casefold_encChar v hv).1)
    simpa using h
  · exact decode_map_encode p hp pyUpper (fun v hv => (casefold_encChar v hv).2.1)
  · refine decode_map_encode p hp pyLower (fun v hv => ?_)
    rw [(casefold_encChar v hv).2.2, (casefold_encChar v hv).1]

/-- Witness for C1 at the concrete byte string 0x48 0x69 0x21. -/
theorem c1_label_roundtrip_witness :
    (∀ b ∈ ([72, 105, 33] : Bytes), b < 256) ∧
    (decode_data (encode_data [72, 105, 33]) = .ok [72, 105, 33] ∧
     decode_data ((encode_data [72, 105, 33]).map pyUpper) = .ok [72, 105, 33] ∧
     decode_data ((encode_data [72, 105, 33]).map pyLower) = .ok [72, 105, 33]) :=
  ⟨by decide, c1_label_roundtrip [72, 105, 33] (by decide)⟩

/-! ## Lemmas about the dict operations -/

theorem alookup_ainsert {κ α : Type} [DecidableEq κ] (k k' : κ) (v : α) (l : List (κ × α)) :
    alookup k (ainsert k' v l) = if k = k' then some v else alookup k l := by
  induction l with
  | nil =>
      by_cases h : k = k' <;> simp [ainsert, alookup, h]
  | cons p t ih =>
      obtain ⟨k2, v2⟩ := p
      by_cases h2 : k' = k2
      · subst h2
        by_cases h : k = k' <;> simp [ainsert, alookup, h]
      · by_cases h : k = k2 <;> simp [ainsert, alookup, h2, h, ih]
        · subst h
          simp [Ne.symm h2]

theorem alookup_ainsert_self {κ α : Type} [DecidableEq κ] (k : κ) (v : α)
    (l : List (κ × α)) : alookup k (ainsert k v l) = some v := by
  simp [alookup_ainsert]

theorem ainsert_same {κ α : Type} [DecidableEq κ] (k : κ) (v : α) (l : List (κ × α))
    (h : alookup k l = some v) : ainsert k v l = l := by
  induction l with
  | nil => simp [alookup] at h
  | cons p t ih =>
      obtain ⟨k2, v2⟩ := p
      by_cases hk : k = k2
      · subst hk
        simp [alookup] at h
        simp [ainsert, h]
      · simp [alookup, hk] at h
        simp [ainsert, hk, ih h]

theorem alookup_aerase_ne {κ α : Type} [DecidableEq κ] (k k' : κ) (l : List (κ × α))
    (h : k ≠ k') : alookup k (aerase k' l) = alookup k l := by
  induction l with
  | nil => rfl
  | cons p t ih =>
      obtain ⟨k2, v2⟩ := p
      by_cases h2 : k' = k2
      · subst h2
        simp [aerase, alookup, h]
      · by_cases hk : k = k2 <;> simp [aerase, alookup, h2, hk, ih]

theorem alookup_mem {κ α : Type} [DecidableEq κ] (k : κ) (v : α) (l : List (κ × α))
    (h : alookup k l = some v) : (k, v) ∈ l := by
  induction l with
  | nil => simp [alookup] at h
  | cons p t ih =>
      obtain ⟨k2, v2⟩ := p
      by_cases hk : k = k2
      · subst hk
        simp [alookup] at h
        simp [h]
      · simp [alookup, hk] at h
        simp [ih h]

theorem aerase_keys_sublist {κ α : Type} [DecidableEq κ] (k : κ) (l : List (κ × α)) :
    ((aerase k l).map Prod.fst).Sublist (l.map Prod.fst) := by
  induction l with
  | nil => simp [aerase]
  | cons p t ih =>
      obtain ⟨k2, v2⟩ := p
      by_cases h : k = k2
      · simp [aerase, h]
      · simpa [aerase, h] using ih.cons₂ k2

theorem alookup_eq_none_of_not_mem {κ α : Type} [DecidableEq κ] (k : κ) (l : List (κ × α))
    (h : k ∉ l.map Prod.fst) : alookup k l = none := by
  induction l with
  | nil => rfl
  | cons p t ih =>
      obtain ⟨k2, v2⟩ := p
      simp only [List.map_cons, List.mem_cons] at h
      push_neg at h
      simp [alookup, h.1, ih h.2]

theorem keys_aerase_of_nodup {κ α : Type} [DecidableEq κ] (k : κ) (l : List (κ × α))
    (h : (l.map Prod.fst).Nodup) : k ∉ (aerase k l).map Prod.fst := by
  induction l with
  | nil => simp [aerase]
  | cons p t ih =>
      obtain ⟨k2, v2⟩ := p
      simp only [List.map_cons, List.nodup_cons] at h
      by_cases hk : k = k2
      · subst hk
        simpa [aerase] using h.1
      · simp only [aerase, if_neg hk, List.map_cons, List.mem_cons]
        push_neg
        exact ⟨hk, ih h.2⟩

theorem alookup_aerase_self {κ α : Type} [DecidableEq κ] (k : κ) (l : List (κ × α))
    (h : (l.map Prod.fst).Nodup) : alookup k (aerase k l) = none :=
  alookup_eq_none_of_not_mem _ _ (keys_aerase_of_nodup k l h)

theorem nodup_keys_aerase {κ α : Type} [DecidableEq κ] (k : κ) (l : List (κ × α))
    (h : (l.map Prod.fst).Nodup) : ((aerase k l).map Prod.fst).Nodup :=
  (aerase_keys_sublist k l).nodup h

/-! ## The result-chunk handler: path lemmas -/

/-- One call of handle_result_query that leaves the buffer incomplete:
the chunk is stored (overwriting any previous copy) and the reply is the
CHUNK acknowledgement. -/
theorem handle_result_incomplete (env : Env) (now tid : Nat) (st : SState)
    (mid cn tn : List Char) (rest : List (List Char)) (cnum tot : Int) (data : Bytes)
    (b0 : Buffer)
    (h1 : pyInt cn = .ok cnum) (h2 : pyInt tn = .ok tot)
    (h3 : rest = [] ∧ data = [] ∨ rest ≠ [] ∧ decode_data (joinDots rest) = .ok data)
    (hb0 : alookup mid st.incoming = some b0 ∨
           alookup mid st.incoming = none ∧
             b0 = { chunks := [], total_chunks := tot, timestamp := now })
    (hincomp : ((ainsert cnum data b0.chunks).length : Int) ≠ tot) :
    handle_result_query env now st (mid :: cn :: tn :: rest) tid =
      (build_txt_response (strB (lstr "CHUNK:" ++ intStr cnum)),
       { st with incoming :=
           ainsert mid { b0 with chunks := ainsert cnum data b0.chunks } st.incoming }) := by
  have hlen : ¬ ((mid :: cn :: tn :: rest).length < 3) := by simp
  unfold handle_result_query
  rw [if_neg hlen]
  show (match pyInt cn, pyInt tn with
    | .ok chunk_num, .ok total_chunks => _
    | _, _ => _) = _
  rw [h1, h2, show (mid :: cn :: tn :: rest).headD [] = mid from rfl]
  have hdec : (if (mid :: cn :: tn :: rest).length > 3
      then decode_data (joinDots ((mid :: cn :: tn :: rest).drop 3)) else .ok []) = .ok data := by
    rcases h3 with ⟨hr, hd⟩ | ⟨hr, hd⟩
    · subst hr; subst hd; simp
    · have hgt : (mid :: cn :: tn :: rest).length > 3 := by
        simp [List.length_cons]
        exact List.length_pos.2 hr
      rw [if_pos hgt]
      simpa using hd
  rw [hdec]
  rcases hb0 with hlk | ⟨hlk, hb⟩
  · rw [hlk]
    show (if ((ainsert cnum data b0.chunks).length : Int) = tot then _ else _) = _
    rw [if_neg hincomp]
  · rw [hlk]
    subst hb
    show (if ((ainsert cnum data _).length : Int) = tot then _ else _) = _
    rw [if_neg hincomp]

/-- One call of handle_result_query that completes the buffer with all
indices present: the buffer is deleted and the result submitted exactly when
the external processing succeeds; on failure the reply is ERROR and the
buffer (including the just-stored chunk) stays. -/
theorem handle_result_complete (env : Env) (now tid : Nat) (st : SState)
    (mid cn tn : List Char) (rest : List (List Char)) (cnum tot : Int) (data : Bytes)
    (b0 : Buffer) (pieces : List Bytes)
    (h1 : pyInt cn = .ok cnum) (h2 : pyInt tn = .ok tot)
    (h3 : rest = [] ∧ data = [] ∨ rest ≠ [] ∧ decode_data (joinDots rest) = .ok data)
    (hb0 : alookup mid st.incoming = some b0 ∨
           alookup mid st.incoming = none ∧
             b0 = { chunks := [], total_chunks := tot, timestamp := now })
    (hcomp : ((ainsert cnum data b0.chunks).length : Int) = tot)
    (hcollect : collectChunks (ainsert cnum data b0.chunks) (List.range tot.toNat) =
      some pieces) :
    (env.processResult pieces.flatten = .ok () →
      handle_result_query env now st (mid :: cn :: tn :: rest) tid =
        (build_txt_response (strB (lstr "ACK")),
         { st with
             incoming := aerase mid
               (ainsert mid { b0 with chunks := ainsert cnum data b0.chunks } st.incoming),
             submitted := st.submitted ++ [pieces.flatten] })) ∧
    (env.processResult pieces.flatten = .error () →
      handle_result_query env now st (mid :: cn :: tn :: rest) tid =
        (build_error_response,
         { st with incoming :=
             ainsert mid { b0 with chunks := ainsert cnum data b0.chunks } st.incoming })) := by
  have hlen : ¬ ((mid :: cn :: tn :: rest).length < 3) := by simp
  have hdec : (if (mid :: cn :: tn :: rest).length > 3
      then decode_data (joinDots ((mid :: cn :: tn :: rest).drop 3)) else .ok []) = .ok data := by
    rcases h3 with ⟨hr, hd⟩ | ⟨hr, hd⟩
    · subst hr; subst hd; simp
    · have hgt : (mid :: cn :: tn :: rest).length > 3 := by
        simp [List.length_cons]
        exact List.length_pos.2 hr
      rw [if_pos hgt]
      simpa using hd
  constructor
  · intro hpr
    unfold handle_result_query
    rw [if_neg hlen]
    show (match pyInt cn, pyInt tn with
      | .ok chunk_num, .ok total_chunks => _
      | _, _ => _) = _
    rw [h1, h2, show (mid :: cn :: tn :: rest).headD [] = mid from rfl, hdec]
    rcases hb0 with hlk | ⟨hlk, hb⟩
    · rw [hlk]
      show (if ((ainsert cnum data b0.chunks).length : Int) = tot then _ else _) = _
      rw [if_pos hcomp, hcollect]
      show (match env.processResult pieces.flatten with
        | .error _ => _
        | .ok _ => _) = _
      rw [hpr]
    · rw [hlk]
      subst hb
      show (if ((ainsert cnum data _).length : Int) = tot then _ else _) = _
      rw [if_pos hcomp, hcollect]
      show (match env.processResult pieces.flatten with
        | .error _ => _
        | .ok _ => _) = _
      rw [hpr]
  · intro hpr
    unfold handle_result_query
    rw [if_neg hlen]
    show (match pyInt cn, pyInt tn with
      | .ok chunk_num, .ok total_chunks => _
      | _, _ => _) = _
    rw [h1, h2, show (mid :: cn :: tn :: rest).headD [] = mid from rfl, hdec]
    rcases hb0 with hlk | ⟨hlk, hb⟩
    · rw [hlk]
      show (if ((ainsert cnum data b0.chunks).length : Int) = tot then _ else _) = _
      rw [if_pos hcomp, hcollect]
      show (match env.processResult pieces.flatten with
        | .error _ => _
        | .ok _ => _) = _
      rw [hpr]
    · rw [hlk]
      subst hb
      show (if ((ainsert cnum data _).length : Int) = tot then _ else _) = _
      rw [if_pos hcomp, hcollect]
      show (match env.processResult pieces.flatten with
        | .error _ => _
        | .ok _ => _) = _
      rw [hpr]

theorem fold_aerase_lookup {κ α : Type} [DecidableEq κ] (ks : List κ) :
    ∀ (l : List (κ × α)) (k : κ), (l.map Prod.fst).Nodup →
      alookup k (ks.foldl (fun m k' => aerase k' m) l) =
        if k ∈ ks then none else alookup k l := by
  induction ks with
  | nil => intro l k _; simp
  | cons k0 rest ih =>
      intro l k hnd
      show alookup k (rest.foldl (fun m k' => aerase k' m) (aerase k0 l)) = _
      rw [ih (aerase k0 l) k (nodup_keys_aerase k0 l hnd)]
      by_cases hmem : k ∈ rest
      · simp [hmem, List.mem_cons]
      · by_cases hk0 : k = k0
        · subst hk0
          simp [hmem, alookup_aerase_self k l hnd]
        · simp [hmem, hk0, alookup_aerase_ne k k0 l hk0]

/-- C2: the SERVFAIL backstop fails on datagrams shorter than two bytes: on
the empty (and the one-byte) datagram, process_query lets an exception escape
its boundary because build_servfail_response itself unpacks two bytes of the
malformed input; from two bytes on, a parse failure is answered with a
SERVFAIL (flags 0x8182) carrying the query's transaction id, as claimed. -/
theorem c2_servfail_backstop_bug :
    process_query defaultConfig nullEnv 0 emptyState [] = (emptyState, .error ()) ∧
    process_query defaultConfig nullEnv 0 emptyState [7] = (emptyState, .error ()) ∧
    process_query defaultConfig nullEnv 0 emptyState [4, 210] =
      (emptyState, .ok [4, 210, 129, 130, 0, 0, 0, 0, 0, 0, 0, 0]) := by
  decide

/-- C3 counterexample: the identical single-chunk result query delivered
twice is acknowledged ACK both times, and the reassembled result is submitted
to the external store twice - not at most once: after the first delivery
completes and deletes the buffer, the re-delivery opens a fresh buffer and
completes it again. -/
theorem c3_idempotence_counterexample :
    (let env : Env := { nullEnv with processResult := fun _ => .ok () };
     let parts : List (List Char) := [lstr "m1", lstr "0", lstr "1", lstr "nbuq"];
     let r1 := handle_result_query env 1000 emptyState parts 5;
     let r2 := handle_result_query env 1001 r1.2 parts 5;
     r1.1 = build_txt_response (strB (lstr "ACK")) ∧
     r2.1 = build_txt_response (strB (lstr "ACK")) ∧
     r2.2.submitted = [[104, 105], [104, 105]]) := by
  decide

/-- C3 (amended): re-delivery of an identical result chunk is idempotent as
long as the chunk does not complete the buffer: the second identical query
returns the same CHUNK acknowledgement and leaves the state (stored chunks
and submission log) exactly unchanged, regardless of the time and transaction
id of the second delivery.  (A chunk that completes the buffer deletes it,
and its re-delivery starts a fresh buffer - see the counterexample.) -/
theorem c3_chunk_idempotence (env : Env) (now now2 tid tid2 : Nat) (st : SState)
    (mid cn tn : List Char) (rest : List (List Char)) (cnum tot : Int) (data : Bytes)
    (b0 : Buffer)
    (h1 : pyInt cn = .ok cnum) (h2 : pyInt tn = .ok tot)
    (h3 : rest = [] ∧ data = [] ∨ rest ≠ [] ∧ decode_data (joinDots rest) = .ok data)
    (hb0 : alookup mid st.incoming = some b0 ∨
           alookup mid st.incoming = none ∧
             b0 = { chunks := [], total_chunks := tot, timestamp := now })
    (hincomp : ((ainsert cnum data b0.chunks).length : Int) ≠ tot) :
    handle_result_query env now st (mid :: cn :: tn :: rest) tid =
      (build_txt_response (strB (lstr "CHUNK:" ++ intStr cnum)),
       { st with incoming :=
           ainsert mid { b0 with chunks := ainsert cnum data b0.chunks } st.incoming }) ∧
    handle_result_query env now2
        ({ st with incoming :=
            ainsert mid { b0 with chunks := ainsert cnum data b0.chunks } st.incoming })
        (mid :: cn :: tn :: rest) tid2 =
      (build_txt_response (strB (lstr "CHUNK:" ++ intStr cnum)),
       { st with incoming :=
           ainsert mid { b0 with chunks := ainsert cnum data b0.chunks } st.incoming }) := by
  have hfirst :=
    handle_result_incomplete env now tid st mid cn tn rest cnum tot data b0 h1 h2 h3 hb0 hincomp
  refine ⟨hfirst, ?_⟩
  have hchunks : ainsert cnum data (ainsert cnum data b0.chunks) = ainsert cnum data b0.chunks :=
    ainsert_same _ _ _ (alookup_ainsert_self _ _ _)
  have hsecond := handle_result_incomplete env now2 tid2
    ({ st with incoming :=
        ainsert mid { b0 with chunks := ainsert cnum data b0.chunks } st.incoming })
    mid cn tn rest cnum tot data { b0 with chunks := ainsert cnum data b0.chunks }
    h1 h2 h3 (Or.inl (alookup_ainsert_self _ _ _)) (by simpa [hchunks] using hincomp)
  rw [hsecond, hchunks]
  have hins : ainsert mid { b0 with chunks := ainsert cnum data b0.chunks }
      (ainsert mid { b0 with chunks := ainsert cnum data b0.chunks } st.incoming) =
      ainsert mid { b0 with chunks := ainsert cnum data b0.chunks } st.incoming :=
    ainsert_same _ _ _ (alookup_ainsert_self _ _ _)
  rw [hins]

/-- Witness for the amended C3 at a concrete two-chunk message: chunk 0 of 2
is delivered twice; both deliveries acknowledge CHUNK:0 and the second one
changes nothing. -/
theorem c3_chunk_idempotence_witness :
    (pyInt (lstr "0") = .ok 0 ∧ pyInt (lstr "2") = .ok 2 ∧
     ([lstr "nbuq"] ≠ ([] : List (List Char)) ∧
       decode_data (joinDots [lstr "nbuq"]) = .ok [104, 105]) ∧
     alookup (lstr "m") emptyState.incoming = none ∧
     ((ainsert (0 : Int) ([104, 105] : Bytes)
        (Buffer.mk [] 2 1000).chunks).length : Int) ≠ 2) ∧
    (handle_result_query nullEnv 1000 emptyState
        [lstr "m", lstr "0", lstr "2", lstr "nbuq"] 5 =
      (build_txt_response (strB (lstr "CHUNK:" ++ intStr 0)),
       SState.mk [(lstr "m", Buffer.mk [(0, [104, 105])] 2 1000)] [] [] [] [] []) ∧
     handle_result_query nullEnv 1001
        (SState.mk [(lstr "m", Buffer.mk [(0, [104, 105])] 2 1000)] [] [] [] [] [])
        [lstr "m", lstr "0", lstr "2", lstr "nbuq"] 6 =
      (build_txt_response (strB (lstr "CHUNK:" ++ intStr 0)),
       SState.mk [(lstr "m", Buffer.mk [(0, [104, 105])] 2 1000)] [] [] [] [] [])) :=
  ⟨⟨by decide, by decide, ⟨by decide, by decide⟩, by decide, by decide⟩,
   c3_chunk_idempotence nullEnv 1000 1001 5 6 emptyState
     (lstr "m") (lstr "0") (lstr "2") [lstr "nbuq"] 0 2 [104, 105]
     (Buffer.mk [] 2 1000) (by decide) (by decide)
     (Or.inr ⟨by decide, by decide⟩) (Or.inr ⟨by decide, by decide⟩) (by decide)⟩

/-- C4: a 600-byte serialized task with the default 50-byte chunk budget is
split into 12 chunks which are stored under the agent id, and the response is
MULTI:ttask1234:12 - but nothing ever consumes outgoing_messages: the
follow-up poll answers NOTASK (the task is now sent) and leaves the whole
state, queued chunks included, untouched, so the task bytes are never
delivered. -/
theorem c4_multi_chunks_never_consumed :
    (let env : Env := { nullEnv with serializeTask := fun _ => List.replicate 600 65 };
     let t : TaskRec :=
       { id := lstr "task12345678", command := lstr "c", parameters := none,
         status := lstr "pending", agent_id := lstr "ag1", sent_at := none };
     let st0 : SState := { emptyState with sessions := [(5, lstr "ag1")], tasks := [t] };
     let r1 := handle_task_query defaultConfig env 1000 st0 [lstr "x"] 5;
     let r2 := handle_task_query defaultConfig env 1001 r1.2 [lstr "x"] 5;
     r1.1 = build_txt_response (strB (lstr "MULTI:ttask1234:12")) ∧
     alookup (lstr "ag1") r1.2.outgoing =
       some (split_data defaultConfig (List.replicate 600 65) (lstr "ttask1234")) ∧
     (split_data defaultConfig (List.replicate 600 65) (lstr "ttask1234")).length = 12 ∧
     r2.1 = build_txt_response (strB (lstr "NOTASK")) ∧
     r2.2 = r1.2) := by
  decide

/-- C10: when the arriving chunk completes the buffer with all indices
present, the handler deletes the buffer and answers ACK exactly when the
deserialize-and-submit step succeeds (the submission is logged); when that
step raises, the answer is the ERROR sentinel and the buffer - including the
just-stored chunk - remains in place, so a later identical re-delivery
re-triggers the completion path (and succeeds once submission does). -/
theorem c10_buffer_deleted_only_on_success (env : Env) (now tid : Nat) (st : SState)
    (mid cn tn : List Char) (rest : List (List Char)) (cnum tot : Int) (data : Bytes)
    (b0 : Buffer) (pieces : List Bytes)
    (h1 : pyInt cn = .ok cnum) (h2 : pyInt tn = .ok tot)
    (h3 : rest = [] ∧ data = [] ∨ rest ≠ [] ∧ decode_data (joinDots rest) = .ok data)
    (hb0 : alookup mid st.incoming = some b0 ∨
           alookup mid st.incoming = none ∧
             b0 = { chunks := [], total_chunks := tot, timestamp := now })
    (hcomp : ((ainsert cnum data b0.chunks).length : Int) = tot)
    (hcollect : collectChunks (ainsert cnum data b0.chunks) (List.range tot.toNat) =
      some pieces) :
    (env.processResult pieces.flatten = .ok () →
      handle_result_query env now st (mid :: cn :: tn :: rest) tid =
        (build_txt_response (strB (lstr "ACK")),
         { st with
             incoming := aerase mid
               (ainsert mid { b0 with chunks := ainsert cnum data b0.chunks } st.incoming),
             submitted := st.submitted ++ [pieces.flatten] })) ∧
    (env.processResult pieces.flatten = .error () →
      handle_result_query env now st (mid :: cn :: tn :: rest) tid =
        (build_error_response,
         { st with incoming :=
             ainsert mid { b0 with chunks := ainsert cnum data b0.chunks } st.incoming })) ∧
    (∀ (env2 : Env) (now2 tid2 : Nat), env2.processResult pieces.flatten = .ok () →
      handle_result_query env2 now2
          ({ st with incoming :=
              ainsert mid { b0 with chunks := ainsert cnum data b0.chunks } st.incoming })
          (mid :: cn :: tn :: rest) tid2 =
        (build_txt_response (strB (lstr "ACK")),
         { st with
             incoming := aerase mid (ainsert mid
               { b0 with chunks := ainsert cnum data b0.chunks } st.incoming),
             submitted := st.submitted ++ [pieces.flatten] })) := by
  have hmain := handle_result_complete env now tid st mid cn tn rest cnum tot data b0 pieces
    h1 h2 h3 hb0 hcomp hcollect
  refine ⟨hmain.1, hmain.2, ?_⟩
  intro env2 now2 tid2 henv2
  have hchunks : ainsert cnum data (ainsert cnum data b0.chunks) = ainsert cnum data b0.chunks :=
    ainsert_same _ _ _ (alookup_ainsert_self _ _ _)
  have happ := (handle_result_complete env2 now2 tid2
    ({ st with incoming :=
        ainsert mid { b0 with chunks := ainsert cnum data b0.chunks } st.incoming })
    mid cn tn rest cnum tot data { b0 with chunks := ainsert cnum data b0.chunks } pieces
    h1 h2 h3 (Or.inl (alookup_ainsert_self _ _ _))
    (by simpa [hchunks] using hcomp)
    (by simpa [hchunks] using hcollect)).1 henv2
  rw [happ, hchunks]
  have hins : ainsert mid { b0 with chunks := ainsert cnum data b0.chunks }
      (ainsert mid { b0 with chunks := ainsert cnum data b0.chunks } st.incoming) =
      ainsert mid { b0 with chunks := ainsert cnum data b0.chunks } st.incoming :=
    ainsert_same _ _ _ (alookup_ainsert_self _ _ _)
  rw [hins]

/-- Witness for C10 at a concrete single-chunk message, with an environment
whose submission succeeds and one whose submission raises. -/
theorem c10_buffer_deleted_only_on_success_witness :
    (pyInt (lstr "0") = .ok 0 ∧ pyInt (lstr "1") = .ok 1 ∧
     ([lstr "nbuq"] ≠ ([] : List (List Char)) ∧
       decode_data (joinDots [lstr "nbuq"]) = .ok [104, 105]) ∧
     alookup (lstr "m") emptyState.incoming = none ∧
     ((ainsert (0 : Int) ([104, 105] : Bytes) (Buffer.mk [] 1 1000).chunks).length : Int) = 1 ∧
     collectChunks (ainsert 0 [104, 105] (Buffer.mk [] 1 1000).chunks)
       (List.range (Int.toNat 1)) = some [[104, 105]] ∧
     ({ nullEnv with processResult := fun _ => .error () } : Env).processResult
       ([[104, 105]] : List Bytes).flatten = .error ()) ∧
    (handle_result_query { nullEnv with processResult := fun _ => .error () } 1000 emptyState
        [lstr "m", lstr "0", lstr "1", lstr "nbuq"] 5 =
      (build_error_response,
       SState.mk [(lstr "m", Buffer.mk [(0, [104, 105])] 1 1000)] [] [] [] [] [])) :=
  ⟨⟨by decide, by decide, ⟨by decide, by decide⟩, by decide, by decide, by decide, by decide⟩,
   (c10_buffer_deleted_only_on_success { nullEnv with processResult := fun _ => .error () } 1000 5 emptyState
      (lstr "m") (lstr "0") (lstr "1") [lstr "nbuq"] 0 1 [104, 105]
      (Buffer.mk [] 1 1000) [[104, 105]]
      (by decide) (by decide) (Or.inr ⟨by decide, by decide⟩)
      (Or.inr ⟨by decide, by decide⟩) (by decide) (by decide)).2.1 (by decide)⟩

/-- C6: chunking boundary: with a session-bound agent and one pending task,
a serialized task of exactly 200 bytes (the single-response threshold in the
source) is returned whole in one text-record response, while 201 bytes
trigger the MULTI:<messageId>:<totalChunks> path with the chunks queued under
the agent id. -/
theorem c6_chunking_boundary (cfg : Config) (envA envB : Env) (now tid : Nat) (st : SState)
    (p0 : List Char) (ps : List (List Char)) (aid : List Char) (t : TaskRec)
    (hsess : alookup tid st.sessions = some aid) (hne : ¬ (aid = []))
    (hpull : pullPending st.tasks aid = [t]) :
    ((envA.serializeTask t).length = 200 →
      handle_task_query cfg envA now st (p0 :: ps) tid =
        (build_txt_response (envA.serializeTask t),
         { st with tasks := markSent st.tasks t.id now })) ∧
    ((envB.serializeTask t).length = 201 →
      handle_task_query cfg envB now st (p0 :: ps) tid =
        (build_txt_response (strB (lstr "MULTI:" ++ ('t' :: t.id.take 8) ++ lstr ":" ++
           natStr (split_data cfg (envB.serializeTask t) ('t' :: t.id.take 8)).length)),
         { st with
             tasks := markSent st.tasks t.id now,
             outgoing := ainsert aid
               (split_data cfg (envB.serializeTask t) ('t' :: t.id.take 8)) st.outgoing })) := by
  have hlen1 : ¬ ((p0 :: ps).length < 1) := by simp
  constructor
  · intro hA
    unfold handle_task_query
    rw [if_neg hlen1, hsess]
    show (match (if aid = [] then decodeAgentId (p0 :: ps) else some aid) with
      | none => _
      | some agent_id => _) = _
    rw [if_neg hne]
    show (match pullPending st.tasks aid with
      | [] => _
      | task :: _ => _) = _
    rw [hpull]
    show (if (envA.serializeTask t).length > 200 then _ else _) = _
    rw [hA, if_neg (by decide)]
  · intro hB
    unfold handle_task_query
    rw [if_neg hlen1, hsess]
    show (match (if aid = [] then decodeAgentId (p0 :: ps) else some aid) with
      | none => _
      | some agent_id => _) = _
    rw [if_neg hne]
    show (match pullPending st.tasks aid with
      | [] => _
      | task :: _ => _) = _
    rw [hpull]
    show (if (envB.serializeTask t).length > 200 then _ else _) = _
    rw [hB, if_pos (by decide)]

/-- Witness for C6: a concrete pending task served at 200 bytes (whole) and
at 201 bytes (MULTI:tTASKID01:5 under the default 50-byte chunk size). -/
theorem c6_chunking_boundary_witness :
    (alookup 3 (SState.mk [] [] [(3, lstr "ag")]
        [TaskRec.mk (lstr "TASKID01") (lstr "c") none (lstr "pending") (lstr "ag") none]
        [] []).sessions = some (lstr "ag") ∧
     ¬ (lstr "ag" = []) ∧
     pullPending (SState.mk [] [] [(3, lstr "ag")]
        [TaskRec.mk (lstr "TASKID01") (lstr "c") none (lstr "pending") (lstr "ag") none]
        [] []).tasks (lstr "ag") =
       [TaskRec.mk (lstr "TASKID01") (lstr "c") none (lstr "pending") (lstr "ag") none] ∧
     (List.replicate 200 65).length = 200 ∧ (List.replicate 201 66).length = 201) ∧
    (handle_task_query defaultConfig { nullEnv with serializeTask := fun _ => List.replicate 200 65 }
        1000
        (SState.mk [] [] [(3, lstr "ag")]
          [TaskRec.mk (lstr "TASKID01") (lstr "c") none (lstr "pending") (lstr "ag") none] [] [])
        [lstr "x"] 3 =
      (build_txt_response (List.replicate 200 65),
       SState.mk [] [] [(3, lstr "ag")]
         [TaskRec.mk (lstr "TASKID01") (lstr "c") none (lstr "sent") (lstr "ag") (some 1000)]
         [] []) ∧
     handle_task_query defaultConfig { nullEnv with serializeTask := fun _ => List.replicate 201 66 }
        1000
        (SState.mk [] [] [(3, lstr "ag")]
          [TaskRec.mk (lstr "TASKID01") (lstr "c") none (lstr "pending") (lstr "ag") none] [] [])
        [lstr "x"] 3 =
      (build_txt_response (strB (lstr "MULTI:" ++ lstr "tTASKID01" ++ lstr ":" ++
         natStr (split_data defaultConfig (List.replicate 201 66) (lstr "tTASKID01")).length)),
       SState.mk []
         [(lstr "ag", split_data defaultConfig (List.replicate 201 66) (lstr "tTASKID01"))]
         [(3, lstr "ag")]
         [TaskRec.mk (lstr "TASKID01") (lstr "c") none (lstr "sent") (lstr "ag") (some 1000)]
         [] [])) :=
  ⟨⟨by decide, by decide, by decide, by decide, by decide⟩,
   (c6_chunking_boundary defaultConfig
      { nullEnv with serializeTask := fun _ => List.replicate 200 65 }
      { nullEnv with serializeTask := fun _ => List.replicate 201 66 }
      1000 3
      (SState.mk [] [] [(3, lstr "ag")]
        [TaskRec.mk (lstr "TASKID01") (lstr "c") none (lstr "pending") (lstr "ag") none] [] [])
      (lstr "x") [] (lstr "ag")
      (TaskRec.mk (lstr "TASKID01") (lstr "c") none (lstr "pending") (lstr "ag") none)
      (by decide) (by decide) (by decide)).1 (by decide),
   (c6_chunking_boundary defaultConfig
      { nullEnv with serializeTask := fun _ => List.replicate 200 65 }
      { nullEnv with serializeTask := fun _ => List.replicate 201 66 }
      1000 3
      (SState.mk [] [] [(3, lstr "ag")]
        [TaskRec.mk (lstr "TASKID01") (lstr "c") none (lstr "pending") (lstr "ag") none] [] [])
      (lstr "x") [] (lstr "ag")
      (TaskRec.mk (lstr "TASKID01") (lstr "c") none (lstr "pending") (lstr "ag") none)
      (by decide) (by decide) (by decide)).2 (by decide)⟩

/-! ## The check-in handler can never succeed (claim C7) -/

theorem joinDots_cons_cons (a b : List Char) (t : List (List Char)) :
    joinDots (a :: b :: t) = a ++ '.' :: joinDots (b :: t) := by
  show List.intercalate (lstr ".") (a :: b :: t) = _
  rw [List.intercalate, List.intersperse]
  show (a :: lstr "." :: List.intersperse (lstr ".") (b :: t)).flatten = _
  rw [List.flatten_cons, List.flatten_cons]
  rfl
  simp

theorem mem_dot_joinDots (parts : List (List Char)) (h : 2 ≤ parts.length) :
    '.' ∈ joinDots parts := by
  match parts with
  | a :: b :: t =>
      rw [joinDots_cons_cons]
      simp
  | [] | [_] => simp at h

theorem mem_rstrip (s : List Char) (x : Char) (hx : x ∈ s) (hne : x ≠ '=') :
    x ∈ (s.reverse.dropWhile (fun c => c = '=')).reverse := by
  rw [List.mem_reverse]
  have hrev : x ∈ s.reverse := List.mem_reverse.2 hx
  have hsplit := List.takeWhile_append_dropWhile (p := fun c => decide (c = '='))
    (l := s.reverse)
  rw [← hsplit] at hrev
  rcases List.mem_append.1 hrev with h1 | h2
  · exact absurd (by simpa using List.mem_takeWhile_imp h1) hne
  · exact h2

theorem decodeChars_none_of_mem (body : List Char) (c : Char) (hc : c ∈ body)
    (hval : charVal c = none) : decodeChars body = none := by
  induction body with
  | nil => simp at hc
  | cons d t ih =>
      rcases List.mem_cons.1 hc with h1 | h2
      · subst h1
        rw [decodeChars, hval]
      · rw [decodeChars, ih h2]
        cases charVal d <;> rfl

theorem b32decode_error_of_mem (s : List Char) (c : Char) (hc : c ∈ s)
    (hval : charVal c = none) (hne : c ≠ '=') : b32decode s = .error () := by
  unfold b32decode
  by_cases h8 : s.length % 8 ≠ 0
  · rw [if_pos h8]
  · rw [if_neg h8]
    unfold b32decodeBody
    by_cases hpad : ¬ (s.length - ((s.reverse.dropWhile (fun c => c = '=')).reverse).length = 0 ∨
        s.length - ((s.reverse.dropWhile (fun c => c = '=')).reverse).length = 1 ∨
        s.length - ((s.reverse.dropWhile (fun c => c = '=')).reverse).length = 3 ∨
        s.length - ((s.reverse.dropWhile (fun c => c = '=')).reverse).length = 4 ∨
        s.length - ((s.reverse.dropWhile (fun c => c = '=')).reverse).length = 6)
    · rw [if_pos hpad]
    · rw [if_neg hpad,
        decodeChars_none_of_mem _ c (mem_rstrip s c hc hne) hval]

theorem decode_data_error_of_dot (enc : List Char) (h : '.' ∈ enc) :
    decode_data enc = .error () := by
  show b32decode ((enc.map pyUpper ++
    List.replicate ((8 - enc.length % 8) % 8) '=').map
      (fun c => if c = '-' then '/' else c)) = .error ()
  apply b32decode_error_of_mem _ '.'
  · apply List.mem_map.2
    refine ⟨'.', ?_, by decide⟩
    apply List.mem_append.2
    exact Or.inl (List.mem_map.2 ⟨'.', h, by decide⟩)
  · decide
  · decide

/-- C7 (code bug): a check-in can never succeed.  handle_checkin_query
requires at least two subdomain parts, but it decodes '.'.join(parts), and
the joined string of two or more parts always contains a dot, which the
base32 decoder rejects; so every check-in query is answered ERROR, the state
(in particular the transactionId → agentId session map) is never written,
and the registration verb is never reached - task queries can only ever
resolve an agent through the fallback decode of the query's own label. -/
theorem c7_checkin_never_binds (env : Env) (st : SState) (parts : List (List Char))
    (tid : Nat) : handle_checkin_query env st parts tid = (build_error_response, st) := by
  unfold handle_checkin_query
  by_cases hlen : parts.length < 2
  · rw [if_pos hlen]
  · rw [if_neg hlen,
      decode_data_error_of_dot _ (mem_dot_joinDots parts (by omega))]

/-! ## Garbage collection (claim C8) -/

/-- Shape of one handle_result_query call, as far as the reassembly map is
concerned: either the map is untouched, or the query's own message id is
(re)inserted, or - exactly on the ACK path - the query's message id is
deleted after its insertion. -/
theorem handle_result_cases (env : Env) (now tid : Nat) (st : SState)
    (parts : List (List Char)) :
    (handle_result_query env now st parts tid).2.incoming = st.incoming ∨
    (∃ buf, (handle_result_query env now st parts tid).2.incoming =
        ainsert (parts.headD []) buf st.incoming) ∨
    (∃ buf, (handle_result_query env now st parts tid).2.incoming =
        aerase (parts.headD []) (ainsert (parts.headD []) buf st.incoming) ∧
      (handle_result_query env now st parts tid).1 =
        build_txt_response (strB (lstr "ACK"))) := by
  unfold handle_result_query
  dsimp only
  split
  · exact Or.inl rfl
  split
  · split
    · exact Or.inl rfl
    · split
      · split
        · exact Or.inr (Or.inl ⟨_, rfl⟩)
        · split
          · exact Or.inr (Or.inl ⟨_, rfl⟩)
          · exact Or.inr (Or.inr ⟨_, rfl, rfl⟩)
      · exact Or.inr (Or.inl ⟨_, rfl⟩)
  · exact Or.inl rfl

/-- C8: reassembly garbage collection: the sweep constants are 5 minutes
between runs and a 10-minute window; the sweep removes a buffer whose
creation timestamp is more than the window in the past; a result chunk
arriving for a message id that is absent (e.g. just swept) is stored in a
fresh, empty buffer stamped now; and the sweep is the only mechanism that
reclaims incomplete buffers - the checkin/task/beacon handlers never touch
the reassembly map, and the result handler removes an entry only on the ACK
(successful submission) path for its own message id. -/
theorem c8_reassembly_gc :
    (cleanup_interval = 300 ∧ inactivity_window = 600) ∧
    (∀ (now : Nat) (st : SState) (mid : List Char) (buf : Buffer),
      (st.incoming.map Prod.fst).Nodup →
      alookup mid st.incoming = some buf →
      inactivity_window < now - buf.timestamp →
      alookup mid (cleanup_sweep now st).incoming = none) ∧
    (∀ (env : Env) (now tid : Nat) (st : SState) (mid cn tn : List Char)
       (rest : List (List Char)) (cnum tot : Int) (data : Bytes),
      pyInt cn = .ok cnum → pyInt tn = .ok tot →
      (rest = [] ∧ data = [] ∨ rest ≠ [] ∧ decode_data (joinDots rest) = .ok data) →
      alookup mid st.incoming = none →
      ((ainsert cnum data ([] : List (Int × Bytes))).length : Int) ≠ tot →
      handle_result_query env now st (mid :: cn :: tn :: rest) tid =
        (build_txt_response (strB (lstr "CHUNK:" ++ intStr cnum)),
         { st with incoming :=
             ainsert mid (Buffer.mk (ainsert cnum data []) tot now) st.incoming })) ∧
    (∀ env st parts tid,
      ((handle_checkin_query env st parts tid).2).incoming = st.incoming) ∧
    (∀ cfg env now st parts tid,
      ((handle_task_query cfg env now st parts tid).2).incoming = st.incoming) ∧
    (∀ now st parts tid,
      ((handle_beacon_query now st parts tid).2).incoming = st.incoming) ∧
    (∀ env now st parts tid mid,
      alookup mid st.incoming ≠ none →
      alookup mid ((handle_result_query env now st parts tid).2).incoming = none →
      mid = parts.headD [] ∧
      (handle_result_query env now st parts tid).1 =
        build_txt_response (strB (lstr "ACK"))) := by
  refine ⟨⟨rfl, rfl⟩, ?_, ?_, ?_, ?_, ?_, ?_⟩
  · -- the sweep removes expired buffers
    intro now st mid buf hnd hlk hold
    show alookup mid (((st.incoming.filter
      (fun p => decide (now - p.2.timestamp > inactivity_window))).map (fun p => p.1)).foldl
        (fun m k => aerase k m) st.incoming) = none
    rw [fold_aerase_lookup _ st.incoming mid hnd]
    have hmem : mid ∈ (st.incoming.filter
        (fun p => decide (now - p.2.timestamp > inactivity_window))).map (fun p => p.1) := by
      apply List.mem_map.2
      refine ⟨(mid, buf), ?_, rfl⟩
      apply List.mem_filter.2
      exact ⟨alookup_mem _ _ _ hlk, by simpa using hold⟩
    rw [if_pos hmem]
  · -- fresh, empty buffer for an absent message id
    intro env now tid st mid cn tn rest cnum tot data h1 h2 h3 hlk hincomp
    exact handle_result_incomplete env now tid st mid cn tn rest cnum tot data
      (Buffer.mk [] tot now) h1 h2 h3 (Or.inr ⟨hlk, rfl⟩) hincomp
  · intro env st parts tid
    unfold handle_checkin_query
    dsimp only
    repeat' (first | rfl | split | (dsimp only; split))
  · intro cfg env now st parts tid
    unfold handle_task_query
    dsimp only
    repeat' (first | rfl | split | (dsimp only; split))
  · intro now st parts tid
    unfold handle_beacon_query
    dsimp only
    repeat' (first | rfl | split | (dsimp only; split))
  · intro env now st parts tid mid hne hnone
    rcases handle_result_cases env now tid st parts with hc | ⟨buf, hc⟩ | ⟨buf, hc, hack⟩
    · rw [hc] at hnone
      exact absurd hnone hne
    · rw [hc, alookup_ainsert] at hnone
      by_cases hmid : mid = parts.headD []
      · rw [if_pos hmid] at hnone
        exact absurd hnone (by simp)
      · rw [if_neg hmid] at hnone
        exact absurd hnone hne
    · by_cases hmid : mid = parts.headD []
      · exact ⟨hmid, hack⟩
      · rw [hc, alookup_aerase_ne _ _ _ hmid, alookup_ainsert, if_neg hmid] at hnone
        exact absurd hnone hne

/-- Witness for C8: a buffer stamped 100 is swept at time 1000; a chunk for
an absent message id opens a fresh buffer; a completing call removes its own
buffer and answers ACK. -/
theorem c8_reassembly_gc_witness :
    (((SState.mk [(lstr "old", Buffer.mk [] 3 100)] [] [] [] [] []
        : SState).incoming.map Prod.fst).Nodup ∧
     alookup (lstr "old") (SState.mk [(lstr "old", Buffer.mk [] 3 100)] [] [] [] [] []
        : SState).incoming = some (Buffer.mk [] 3 100) ∧
     inactivity_window < 1000 - (Buffer.mk [] 3 100).timestamp ∧
     alookup (lstr "m") emptyState.incoming = none ∧
     alookup (lstr "m") (SState.mk [(lstr "m", Buffer.mk [] 1 999)] [] [] [] [] []
        : SState).incoming ≠ none ∧
     alookup (lstr "m") ((handle_result_query nullEnv 1000
        (SState.mk [(lstr "m", Buffer.mk [] 1 999)] [] [] [] [] [])
        [lstr "m", lstr "0", lstr "1", lstr "nbuq"] 5).2).incoming = none) ∧
    (alookup (lstr "old")
        (cleanup_sweep 1000 (SState.mk [(lstr "old", Buffer.mk [] 3 100)] [] [] [] [] [])).incoming
       = none ∧
     handle_result_query nullEnv 1000 emptyState [lstr "m", lstr "0", lstr "2", lstr "nbuq"] 5 =
       (build_txt_response (strB (lstr "CHUNK:" ++ intStr 0)),
        SState.mk [(lstr "m", Buffer.mk [(0, [104, 105])] 2 1000)] [] [] [] [] []) ∧
     (lstr "m" = ([lstr "m", lstr "0", lstr "1", lstr "nbuq"] : List (List Char)).headD [] ∧
      (handle_result_query nullEnv 1000
        (SState.mk [(lstr "m", Buffer.mk [] 1 999)] [] [] [] [] [])
        [lstr "m", lstr "0", lstr "1", lstr "nbuq"] 5).1 =
        build_txt_response (strB (lstr "ACK")))) :=
  ⟨⟨by decide, by decide, by decide, by decide, by decide, by decide⟩,
   c8_reassembly_gc.2.1 1000 (SState.mk [(lstr "old", Buffer.mk [] 3 100)] [] [] [] [] [])
     (lstr "old") (Buffer.mk [] 3 100) (by decide) (by decide) (by decide),
   c8_reassembly_gc.2.2.1 nullEnv 1000 5 emptyState (lstr "m") (lstr "0") (lstr "2")
     [lstr "nbuq"] 0 2 [104, 105] (by decide) (by decide)
     (Or.inr ⟨by decide, by decide⟩) (by decide) (by decide),
   c8_reassembly_gc.2.2.2.2.2.2 nullEnv 1000
     (SState.mk [(lstr "m", Buffer.mk [] 1 999)] [] [] [] [] [])
     [lstr "m", lstr "0", lstr "1", lstr "nbuq"] 5 (lstr "m") (by decide) (by decide)⟩

/-! ## Wire-level response construction (claims C5, C9) -/

theorem splitDots_subset : ∀ (s : List Char), ∀ g ∈ splitDots s, ∀ c ∈ g, c ∈ s
  | [] => by
      intro g hg c hc
      simp only [splitDots, List.mem_singleton] at hg
      subst hg
      simp at hc
  | d :: rest => by
      intro g hg c hc
      have ih := splitDots_subset rest
      cases hrec : splitDots rest with
      | nil =>
          rw [splitDots, hrec] at hg
          have hg2 : g ∈ ([[]] : List (List Char)) := hg
          simp only [List.mem_singleton] at hg2
          subst hg2
          simp at hc
      | cons g0 gs =>
          rw [splitDots, hrec] at hg
          have hg2 : g ∈ (if d = '.' then [] :: g0 :: gs else (d :: g0) :: gs) := hg
          by_cases hd : d = '.'
          · rw [if_pos hd] at hg2
            rcases List.mem_cons.1 hg2 with h1 | h2
            · subst h1; simp at hc
            · exact List.mem_cons_of_mem d (ih g (by rw [hrec]; exact h2) c hc)
          · rw [if_neg hd] at hg2
            rcases List.mem_cons.1 hg2 with h1 | h2
            · subst h1
              rcases List.mem_cons.1 hc with h3 | h4
              · subst h3; simp
              · exact List.mem_cons_of_mem d (ih g0 (by rw [hrec]; simp) c h4)
            · exact List.mem_cons_of_mem d (ih g (by rw [hrec]; simp [h2]) c hc)

theorem foldlM_labels_ok (segs : List (List Char))
    (h : ∀ g ∈ segs, g.length < 256 ∧ ∀ c ∈ g, c.toNat < 128) :
    ∀ acc : Bytes, ∃ bs, (segs.foldlM (fun acc part =>
      if part = [] then pure acc
      else do
        let l ← pack8 part.length
        let e ← asciiEnc part
        pure (acc ++ l ++ e)) acc : Except Unit Bytes) = .ok bs := by
  induction segs with
  | nil => intro acc; exact ⟨acc, rfl⟩
  | cons g t ih =>
      intro acc
      have hg := h g (by simp)
      have ht := fun x hx => h x (List.mem_cons_of_mem g hx)
      by_cases hemp : g = []
      · obtain ⟨bs, hbs⟩ := ih ht acc
        refine ⟨bs, ?_⟩
        rw [List.foldlM_cons]
        show (if g = [] then pure acc else _) >>= _ = _
        rw [if_pos hemp]
        exact hbs
      · obtain ⟨bs, hbs⟩ := ih ht (acc ++ [g.length] ++ g.map Char.toNat)
        refine ⟨bs, ?_⟩
        rw [List.foldlM_cons]
        show (if g = [] then pure acc else _) >>= _ = _
        rw [if_neg hemp]
        have hp8 : pack8 g.length = .ok [g.length] := by
          rw [pack8, if_pos hg.1]
        have hae : asciiEnc g = .ok (g.map Char.toNat) := by
          rw [asciiEnc, if_pos]
          rw [List.all_eq_true]
          intro c hc
          simpa using hg.2 c hc
        show ((pack8 g.length) >>= fun l => (asciiEnc g) >>= fun e =>
            pure (acc ++ l ++ e)) >>= _ = _
        rw [hp8, hae]
        exact hbs

theorem encodeLabels_ok (dom : List Char) (hseg : ∀ g ∈ splitDots dom, g.length < 256)
    (hasc : ∀ c ∈ dom, c.toNat < 128) : ∃ bs, encodeLabels dom = .ok bs :=
  foldlM_labels_ok (splitDots dom)
    (fun g hg => ⟨hseg g hg, fun c hc => hasc c (splitDots_subset dom g hg c hc)⟩) []

theorem encodeQuestion_ok (q : Question) (hseg : ∀ g ∈ splitDots q.name, g.length < 256)
    (hasc : ∀ c ∈ q.name, c.toNat < 128) (ht : q.qtype < 65536) (hc : q.qclass < 65536) :
    ∃ qb, encodeQuestion q = .ok qb := by
  obtain ⟨bs, hbs⟩ := encodeLabels_ok q.name hseg hasc
  refine ⟨bs ++ [0] ++ [q.qtype / 256, q.qtype % 256] ++ [q.qclass / 256, q.qclass % 256], ?_⟩
  unfold encodeQuestion
  rw [hbs]
  show (pack16 q.qtype >>= fun t => pack16 q.qclass >>= fun c =>
      pure (bs ++ [0] ++ t ++ c)) = _
  rw [show pack16 q.qtype = .ok [q.qtype / 256, q.qtype % 256] from by
        rw [pack16, if_pos ht],
      show pack16 q.qclass = .ok [q.qclass / 256, q.qclass % 256] from by
        rw [pack16, if_pos hc]]
  rfl

theorem build_nxdomain_single (tid : Nat) (q : Question) (qb : Bytes)
    (htid : tid < 65536) (hq : encodeQuestion q = .ok qb) :
    build_nxdomain_response tid [q] =
      .ok ([tid / 256, tid % 256, 129, 131, 0, 1, 0, 0, 0, 0, 0, 0] ++ qb) := by
  have hfold : (List.foldlM (fun acc q => do
      let e ← encodeQuestion q
      pure (acc ++ e)) ([] : Bytes) [q] : Except Unit Bytes) = .ok qb := by
    rw [List.foldlM_cons]
    show (encodeQuestion q >>= fun e => pure ([] ++ e)) >>= _ = _
    rw [hq]
    show (List.foldlM (fun acc q => do
      let e ← encodeQuestion q
      pure (acc ++ e)) (([] : Bytes) ++ qb) ([] : List Question) : Except Unit Bytes) = _
    rw [List.foldlM_nil, List.nil_append]
    rfl
  unfold build_nxdomain_response
  rw [show pack16 tid = .ok [tid / 256, tid % 256] from by rw [pack16, if_pos htid],
      show pack16 33155 = .ok [129, 131] from rfl,
      show pack16 [q].length = .ok [0, 1] from by simp [pack16],
      show pack16 0 = .ok [0, 0] from rfl,
      hfold]
  rfl

theorem handle_agent_query_data (cfg : Config) (env : Env) (now : Nat) (st : SState)
    (sub : List Char) (qtype tid : Nat)
    (hkw : sub.take (sub.length - 1) = [] ∨
      ((splitDots (sub.take (sub.length - 1))).headD []) ∉
        ([lstr "checkin", lstr "task", lstr "result", lstr "beacon"] : List (List Char))) :
    handle_agent_query cfg env now st (sub ++ '.' :: cfg.domain) qtype tid = (none, st) := by
  unfold handle_agent_query
  have hsuf : ('.' :: cfg.domain).isSuffixOf (sub ++ '.' :: cfg.domain) = true := by
    rw [List.isSuffixOf, List.isPrefixOf_iff_prefix]
    simp
  rw [if_pos hsuf]
  have hsubdom : (sub ++ '.' :: cfg.domain).take
      ((sub ++ '.' :: cfg.domain).length - (('.' :: cfg.domain).length + 1)) =
      sub.take (sub.length - 1) := by
    have hlen : (sub ++ '.' :: cfg.domain).length - (('.' :: cfg.domain).length + 1) =
        sub.length - 1 := by
      simp only [List.length_append, List.length_cons]
      omega
    rw [hlen, List.take_append_of_le_length (by omega)]
  rw [hsubdom]
  by_cases hemp : sub.take (sub.length - 1) = []
  · rw [if_pos hemp]
  · rw [if_neg hemp]
    have hnm : ((splitDots (sub.take (sub.length - 1))).headD []) ∉
        ([lstr "checkin", lstr "task", lstr "result", lstr "beacon"] : List (List Char)) := by
      rcases hkw with h | h
      · exact absurd h hemp
      · exact h
    simp only [List.mem_cons, List.mem_singleton, not_or] at hnm
    rw [if_neg hnm.1, if_neg hnm.2.1, if_neg hnm.2.2.1, if_neg hnm.2.2.2.1]
    rfl

/-- C5 counterexample: the TXT query for checkinx.example.com has first
subdomain label checkinx, which is none of checkin/task/result/beacon, yet
the server does not answer NXDOMAIN: the dispatcher drops the last character
of the subdomain, reads the label as checkin, and answers a success response
(flags 0x8180, answer count 1) carrying the ERROR sentinel. -/
theorem c5_stealth_counterexample :
    (splitDots (lstr "checkinx")).headD [] ∉
      ([lstr "checkin", lstr "task", lstr "result", lstr "beacon"] : List (List Char)) ∧
    parse_dns_query
        [0,77,1,0,0,1,0,0,0,0,0,0,8,99,104,101,99,107,105,110,120,7,101,120,97,109,112,
         108,101,3,99,111,109,0,0,16,0,1] =
      .ok (77, [Question.mk (lstr "checkinx.example.com") 16 1]) ∧
    process_query defaultConfig nullEnv 0 emptyState
        [0,77,1,0,0,1,0,0,0,0,0,0,8,99,104,101,99,107,105,110,120,7,101,120,97,109,112,
         108,101,3,99,111,109,0,0,16,0,1] =
      (emptyState,
       .ok [0,77,129,128,0,1,0,1,0,0,0,0,8,99,104,101,99,107,105,110,120,7,101,120,97,
            109,112,108,101,3,99,111,109,0,0,16,0,1,192,12,0,16,0,1,0,0,1,44,0,6,5,69,
            82,82,79,82]) := by
  decide

/-- C5 (amended): for every well-formed TXT/IN query whose name lies under
the configured base domain, the dispatcher first drops the final character of
the subdomain (an off-by-one in the slice bound); whenever the resulting
truncated subdomain is empty or its first label is none of
checkin/task/result/beacon, the server replies NXDOMAIN: flags 0x8183 and
answer count 0 (bytes 6-7 of the response), never SERVFAIL, echoing the
question. -/
theorem c5_stealth_nxdomain (cfg : Config) (env : Env) (now : Nat) (st : SState)
    (data : Bytes) (tid : Nat) (sub : List Char)
    (hparse : parse_dns_query data = .ok (tid, [Question.mk (sub ++ '.' :: cfg.domain) 16 1]))
    (htid : tid < 65536)
    (hseg : ∀ g ∈ splitDots (sub ++ '.' :: cfg.domain), g.length < 256)
    (hasc : ∀ c ∈ sub ++ '.' :: cfg.domain, c.toNat < 128)
    (hkw : sub.take (sub.length - 1) = [] ∨
      ((splitDots (sub.take (sub.length - 1))).headD []) ∉
        ([lstr "checkin", lstr "task", lstr "result", lstr "beacon"] : List (List Char))) :
    ∃ qb, encodeQuestion (Question.mk (sub ++ '.' :: cfg.domain) 16 1) = .ok qb ∧
      process_query cfg env now st data =
        (st, .ok ([tid / 256, tid % 256, 129, 131, 0, 1, 0, 0, 0, 0, 0, 0] ++ qb)) := by
  obtain ⟨qb, hqb⟩ := encodeQuestion_ok (Question.mk (sub ++ '.' :: cfg.domain) 16 1) hseg hasc (show (16 : Nat) < 65536 by decide) (show (1 : Nat) < 65536 by decide)
  refine ⟨qb, hqb, ?_⟩
  have hloop : answerLoop cfg env now tid
      [Question.mk (sub ++ '.' :: cfg.domain) 16 1] [] st = (st, .ok []) := by
    unfold answerLoop
    dsimp only
    rw [if_neg (by decide : ¬ ((1 : Nat) ≠ 1)), if_neg (by decide : ¬ ((16 : Nat) = 1)),
        if_pos (by decide : (16 : Nat) = 16),
        handle_agent_query_data cfg env now st sub 16 tid hkw]
    show answerLoop cfg env now tid [] [] st = _
    rfl
  unfold process_query
  rw [hparse]
  show (match answerLoop cfg env now tid
      [Question.mk (sub ++ '.' :: cfg.domain) 16 1] [] st with
    | (st', .error _) => _
    | (st', .ok answers) => _) = _
  rw [hloop]
  show (if ([] : List Answer) ≠ [] then _ else _) = _
  rw [if_neg (by simp)]
  rw [build_nxdomain_single tid _ qb htid hqb]

/-- Witness for the amended C5: the TXT query for foobar.baz.example.com is
answered NXDOMAIN with answer count 0. -/
theorem c5_stealth_nxdomain_witness :
    (parse_dns_query
        [0,77,1,0,0,1,0,0,0,0,0,0,6,102,111,111,98,97,114,3,98,97,122,7,101,120,97,
         109,112,108,101,3,99,111,109,0,0,16,0,1] =
      .ok (77, [Question.mk (lstr "foobar.baz" ++ '.' :: defaultConfig.domain) 16 1]) ∧
     (77 : Nat) < 65536 ∧
     (∀ g ∈ splitDots (lstr "foobar.baz" ++ '.' :: defaultConfig.domain), g.length < 256) ∧
     (∀ c ∈ lstr "foobar.baz" ++ '.' :: defaultConfig.domain, c.toNat < 128) ∧
     ((splitDots ((lstr "foobar.baz").take ((lstr "foobar.baz").length - 1))).headD []) ∉
       ([lstr "checkin", lstr "task", lstr "result", lstr "beacon"] : List (List Char))) ∧
    (∃ qb, encodeQuestion (Question.mk (lstr "foobar.baz" ++ '.' :: defaultConfig.domain) 16 1) =
        .ok qb ∧
      process_query defaultConfig nullEnv 0 emptyState
          [0,77,1,0,0,1,0,0,0,0,0,0,6,102,111,111,98,97,114,3,98,97,122,7,101,120,97,
           109,112,108,101,3,99,111,109,0,0,16,0,1] =
        (emptyState, .ok ([77 / 256, 77 % 256, 129, 131, 0, 1, 0, 0, 0, 0, 0, 0] ++ qb))) :=
  ⟨⟨by decide, by decide, by decide, by decide, by decide⟩,
   c5_stealth_nxdomain defaultConfig nullEnv 0 emptyState
     [0,77,1,0,0,1,0,0,0,0,0,0,6,102,111,111,98,97,114,3,98,97,122,7,101,120,97,
      109,112,108,101,3,99,111,109,0,0,16,0,1]
     77 (lstr "foobar.baz") (by decide) (by decide) (by decide) (by decide)
     (Or.inr (by decide))⟩

theorem ipBytes_length (s : List Char) (ip : Bytes) (h : ipBytes s = .ok ip) :
    ip.length = 4 := by
  unfold ipBytes at h
  cases hp : parseIpParts (splitDots s) with
  | error e =>
      rw [hp] at h
      exact Except.noConfusion h
  | ok ns =>
      rw [hp] at h
      rcases ns with _ | ⟨a, _ | ⟨b, _ | ⟨c, _ | ⟨d, _ | ⟨e, t⟩⟩⟩⟩⟩
      · exact Except.noConfusion h
      · exact Except.noConfusion h
      · exact Except.noConfusion h
      · exact Except.noConfusion h
      · change (if 0 ≤ a ∧ a < 256 ∧ 0 ≤ b ∧ b < 256 ∧ 0 ≤ c ∧ c < 256 ∧ 0 ≤ d ∧ d < 256
            then Except.ok [a.toNat, b.toNat, c.toNat, d.toNat]
            else Except.error ()) = Except.ok ip at h
        split at h
        · injection h with h2
          rw [← h2]
          rfl
        · exact Except.noConfusion h
      · exact Except.noConfusion h

theorem build_dns_single_a (tid : Nat) (q : Question) (qb : Bytes) (a : Answer)
    (htid : tid < 65536) (hq : encodeQuestion q = .ok qb)
    (ht : a.rtype < 65536) (hc : a.rclass < 65536) (httl : a.ttl < 4294967296)
    (hrd : a.rdata.length < 65536) :
    build_dns_response tid [q] [a] =
      .ok ([tid / 256, tid % 256, 129, 128, 0, 1, 0, 1, 0, 0, 0, 0] ++ qb ++
        ([192, 12] ++ [a.rtype / 256, a.rtype % 256] ++ [a.rclass / 256, a.rclass % 256] ++
         [a.ttl / 16777216 % 256, a.ttl / 65536 % 256, a.ttl / 256 % 256, a.ttl % 256] ++
         [a.rdata.length / 256, a.rdata.length % 256] ++ a.rdata)) := by
  have hfold : (List.foldlM (fun acc q => do
      let e ← encodeQuestion q
      pure (acc ++ e)) ([] : Bytes) [q] : Except Unit Bytes) = .ok qb := by
    rw [List.foldlM_cons]
    show (encodeQuestion q >>= fun e => pure ([] ++ e)) >>= _ = _
    rw [hq]
    show (List.foldlM (fun acc q => do
      let e ← encodeQuestion q
      pure (acc ++ e)) (([] : Bytes) ++ qb) ([] : List Question) : Except Unit Bytes) = _
    rw [List.foldlM_nil, List.nil_append]
    rfl
  have hafold : (List.foldlM (fun acc a => do
      let t ← pack16 a.rtype
      let c ← pack16 a.rclass
      let ttl ← pack32 a.ttl
      let ln ← pack16 a.rdata.length
      pure (acc ++ [0xc0, 0x0c] ++ t ++ c ++ ttl ++ ln ++ a.rdata)) ([] : Bytes) [a] :
      Except Unit Bytes) =
      .ok (([] : Bytes) ++ [0xc0, 0x0c] ++ [a.rtype / 256, a.rtype % 256] ++
        [a.rclass / 256, a.rclass % 256] ++
        [a.ttl / 16777216 % 256, a.ttl / 65536 % 256, a.ttl / 256 % 256, a.ttl % 256] ++
        [a.rdata.length / 256, a.rdata.length % 256] ++ a.rdata) := by
    rw [List.foldlM_cons]
    show ((pack16 a.rtype >>= fun t => pack16 a.rclass >>= fun c =>
        pack32 a.ttl >>= fun ttl => pack16 a.rdata.length >>= fun ln =>
        pure ([] ++ [0xc0, 0x0c] ++ t ++ c ++ ttl ++ ln ++ a.rdata)) >>= _) = _
    rw [show pack16 a.rtype = .ok [a.rtype / 256, a.rtype % 256] from by
          rw [pack16, if_pos ht],
        show pack16 a.rclass = .ok [a.rclass / 256, a.rclass % 256] from by
          rw [pack16, if_pos hc],
        show pack32 a.ttl = .ok [a.ttl / 16777216 % 256, a.ttl / 65536 % 256,
            a.ttl / 256 % 256, a.ttl % 256] from by rw [pack32, if_pos httl],
        show pack16 a.rdata.length = .ok [a.rdata.length / 256, a.rdata.length % 256] from by
          rw [pack16, if_pos hrd]]
    show (List.foldlM (fun acc a => do
        let t ← pack16 a.rtype
        let c ← pack16 a.rclass
        let ttl ← pack32 a.ttl
        let ln ← pack16 a.rdata.length
        pure (acc ++ [0xc0, 0x0c] ++ t ++ c ++ ttl ++ ln ++ a.rdata))
        (([] : Bytes) ++ [0xc0, 0x0c] ++ [a.rtype / 256, a.rtype % 256] ++
          [a.rclass / 256, a.rclass % 256] ++
          [a.ttl / 16777216 % 256, a.ttl / 65536 % 256, a.ttl / 256 % 256, a.ttl % 256] ++
          [a.rdata.length / 256, a.rdata.length % 256] ++ a.rdata)
        ([] : List Answer) : Except Unit Bytes) = _
    rw [List.foldlM_nil]
    rfl
  unfold build_dns_response
  rw [show pack16 tid = .ok [tid / 256, tid % 256] from by rw [pack16, if_pos htid],
      show pack16 33152 = .ok [129, 128] from rfl,
      show pack16 [q].length = .ok [0, 1] from by simp [pack16],
      show pack16 [a].length = .ok [0, 1] from by simp [pack16],
      show pack16 0 = .ok [0, 0] from rfl,
      hfold, hafold]
  show Except.ok _ = Except.ok _
  simp

/-- C9 (implicit): every well-formed single-question query of class IN and
type A - whatever the name, inside or outside the configured base domain -
is answered with a success response (flags 0x8180, answer count 1) whose one
answer is an A record carrying the four bytes of the configured response ip
(default 127.0.0.1); the state is untouched.  The NXDOMAIN silence for
foreign names applies only to TXT-type questions. -/
theorem c9_a_record_any_name (cfg : Config) (env : Env) (now : Nat) (st : SState)
    (data : Bytes) (tid : Nat) (dom : List Char) (ip : Bytes)
    (hparse : parse_dns_query data = .ok (tid, [Question.mk dom 1 1]))
    (htid : tid < 65536)
    (hip : ipBytes cfg.response_ip = .ok ip)
    (httl : cfg.ttl < 4294967296)
    (hseg : ∀ g ∈ splitDots dom, g.length < 256)
    (hasc : ∀ c ∈ dom, c.toNat < 128) :
    ∃ qb, encodeQuestion (Question.mk dom 1 1) = .ok qb ∧
      ip.length = 4 ∧
      process_query cfg env now st data =
        (st, .ok ([tid / 256, tid % 256, 129, 128, 0, 1, 0, 1, 0, 0, 0, 0] ++ qb ++
          ([192, 12] ++ [0, 1] ++ [0, 1] ++
           [cfg.ttl / 16777216 % 256, cfg.ttl / 65536 % 256, cfg.ttl / 256 % 256,
            cfg.ttl % 256] ++ [0, 4] ++ ip))) := by
  obtain ⟨qb, hqb⟩ := encodeQuestion_ok (Question.mk dom 1 1) hseg hasc
    (show (1 : Nat) < 65536 by decide) (show (1 : Nat) < 65536 by decide)
  have hlen4 : ip.length = 4 := ipBytes_length _ _ hip
  refine ⟨qb, hqb, hlen4, ?_⟩
  have hloop : answerLoop cfg env now tid [Question.mk dom 1 1] [] st =
      (st, .ok [Answer.mk dom 1 1 cfg.ttl ip]) := by
    unfold answerLoop
    dsimp only
    rw [if_neg (by decide : ¬ ((1 : Nat) ≠ 1)), if_pos (by decide : (1 : Nat) = 1), hip]
    show answerLoop cfg env now tid [] ([] ++ [Answer.mk dom 1 1 cfg.ttl ip]) st = _
    rw [show ([] : List Answer) ++ [Answer.mk dom 1 1 cfg.ttl ip] =
      [Answer.mk dom 1 1 cfg.ttl ip] from rfl]
    rfl
  unfold process_query
  rw [hparse]
  show (match answerLoop cfg env now tid [Question.mk dom 1 1] [] st with
    | (st', .error _) => _
    | (st', .ok answers) => _) = _
  rw [hloop]
  show (if [Answer.mk dom 1 1 cfg.ttl ip] ≠ [] then _ else _) = _
  rw [if_pos (by simp)]
  have hbuild := build_dns_single_a tid (Question.mk dom 1 1) qb
    (Answer.mk dom 1 1 cfg.ttl ip) htid hqb
    (show (1 : Nat) < 65536 by decide) (show (1 : Nat) < 65536 by decide) httl
    (by rw [show (Answer.mk dom 1 1 cfg.ttl ip).rdata = ip from rfl, hlen4]; decide)
  rw [hbuild]
  simp [hlen4]

/-- Witness for C9: the A/IN query for x.y (a name outside the base domain)
is answered with one A record carrying 127.0.0.1. -/
theorem c9_a_record_any_name_witness :
    (parse_dns_query [0,77,1,0,0,1,0,0,0,0,0,0,1,120,1,121,0,0,1,0,1] =
       .ok (77, [Question.mk (lstr "x.y") 1 1]) ∧
     (77 : Nat) < 65536 ∧
     ipBytes defaultConfig.response_ip = .ok [127, 0, 0, 1] ∧
     defaultConfig.ttl < 4294967296 ∧
     (∀ g ∈ splitDots (lstr "x.y"), g.length < 256) ∧
     (∀ c ∈ lstr "x.y", c.toNat < 128)) ∧
    (∃ qb, encodeQuestion (Question.mk (lstr "x.y") 1 1) = .ok qb ∧
      ([127, 0, 0, 1] : Bytes).length = 4 ∧
      process_query defaultConfig nullEnv 0 emptyState
          [0,77,1,0,0,1,0,0,0,0,0,0,1,120,1,121,0,0,1,0,1] =
        (emptyState, .ok ([77 / 256, 77 % 256, 129, 128, 0, 1, 0, 1, 0, 0, 0, 0] ++ qb ++
          ([192, 12] ++ [0, 1] ++ [0, 1] ++
           [defaultConfig.ttl / 16777216 % 256, defaultConfig.ttl / 65536 % 256,
            defaultConfig.ttl / 256 % 256, defaultConfig.ttl % 256] ++
           [0, 4] ++ [127, 0, 0, 1])))) :=
  ⟨⟨by decide, by decide, by decide, by decide, by decide, by decide⟩,
   c9_a_record_any_name defaultConfig nullEnv 0 emptyState
     [0,77,1,0,0,1,0,0,0,0,0,0,1,120,1,121,0,0,1,0,1] 77 (lstr "x.y") [127, 0, 0, 1]
     (by decide) (by decide) (by decide) (by decide) (by decide) (by decide)⟩

end DnsC2
